import Mathlib

/-!
# SelectSubMatrix: a shallow embedding

A verification development for `src/Core/Algorithms/Math/SelectSubMatrix.cc`
of SCIRun.  The three entry points of `SelectSubMatrixAlgorithm` are embedded
as Lean functions:

* `SelectSubMatrixAlgorithm.get_sub_matrix` (source lines 50-89),
* `SelectSubMatrixAlgorithm.run` (the overload on index matrices, lines 91-224),
* `SelectSubMatrixAlgorithm.run_vector` (the overload on index vectors,
  lines 226-389; C++ overloads share the name `run`, Lean needs two names).

Conventions of the embedding.

* `index_type` and `size_type` are 64-bit signed integers in the source.  They
  are embedded as `Int` (sizes of containers as `Nat`).  The arithmetic of the
  source is `end - start + 1` and `start + i` on values read with `toInt()`
  (32 bits) and on container sizes, which cannot leave the 64-bit range, so no
  wrap-around has to be modelled.
* Matrix coefficients are `double` in the source.  The algorithm only copies
  coefficients and tests them against zero, so they are embedded as `Int`.
* `nrows()` and `ncols()` are `size_t` in the source.  A comparison of an
  `index_type` with one of them is unsigned: the signed operand is taken modulo
  2^64 first (`to_size_t`).
* A matrix handle is an `Option`: `none` is the null handle.
* `THROW_ALGORITHM_INPUT_ERROR(msg)` is embedded as `Except.error` carrying a
  constructor of `AlgorithmInputError` that stands for the message.
* `remark(msg)` appends to an explicit log of diagnostics (`Run.remarks`).
* A call into Eigen whose documented precondition (`eigen_assert`) is violated
  is embedded as the error `AlgorithmInputError.eigenAssert`: the source has
  no defined behaviour there.
-/

namespace SCIRun

/-- Index type of the source (`SCIRun::index_type`, a signed 64-bit integer). -/
abbrev index_type := Int

/-- Size type of the source (`SCIRun::size_type`, a signed 64-bit integer). -/
abbrev size_type := Int

/-- Modelled from the spec: the class `DenseMatrix` is declared outside the
sources at hand.  A dense matrix stores every element explicitly in row/column
order: `data` is the list of rows, `nrows` and `ncols` its shape. -/
structure DenseMatrix where
  nrows : Nat
  ncols : Nat
  data : List (List Int)
deriving DecidableEq, Repr

/-- Modelled from the spec: the class `DenseColumnMatrix` is declared outside
the sources at hand.  A column vector is a matrix constrained to exactly one
column; `data` lists its rows. -/
structure DenseColumnMatrix where
  data : List Int
deriving DecidableEq, Repr

/-- Modelled from the spec: the class `SparseRowMatrix` is declared outside the
sources at hand.  A sparse matrix stores only some elements, addressable by row
and column: `entries` lists the stored coefficients as (row, column, value). -/
structure SparseRowMatrix where
  nrows : Nat
  ncols : Nat
  entries : List (Nat × Nat × Int)
deriving DecidableEq, Repr

/-- The matrix behind a `MatrixHandle`: one of the three representations the
algorithm specialises on, or any other subclass of the matrix base class. -/
inductive Matrix where
  | dense (m : DenseMatrix)
  | sparse (m : SparseRowMatrix)
  | column (m : DenseColumnMatrix)
  | other (nrows ncols : Nat)
deriving DecidableEq, Repr

/-- A shared handle on a matrix; `none` is the null handle. -/
abbrev MatrixHandle := Option Matrix

/-- A shared handle on a dense matrix; `none` is the null handle. -/
abbrev DenseMatrixHandle := Option DenseMatrix

/-- The messages of the `THROW_ALGORITHM_INPUT_ERROR` calls of the source, and
`eigenAssert` for a violated precondition of an Eigen call. -/
inductive AlgorithmInputError where
  /-- "No input matrix" -/
  | noInputMatrix
  /-- "No row and column indices given" -/
  | noIndices
  /-- "Selected row exceeds matrix dimensions" -/
  | selectedRowExceeds
  /-- "Selected column exceeds matrix dimensions" -/
  | selectedColumnExceeds
  /-- "Input matrix is apparently not a column matrix! " -/
  | notAColumnMatrix
  /-- "Input matrix (column) does not contain any rows! " -/
  | emptyColumnMatrix
  /-- "Gui row indeces exceed input matrix dimensions! " -/
  | guiRowIndicesExceed
  /-- "Conversion to column matrix did not work! " -/
  | conversionToColumnFailed
  /-- "Column input matrix does contain bad indeces! " -/
  | badColumnIndices
  /-- "Rows input matrix does not contain any rows! " -/
  | noRows
  /-- "Index in column index matrix out of range! " -/
  | columnIndexOutOfRange
  /-- "Unknown input matrix type" -/
  | unknownMatrixType
  /-- An `eigen_assert` precondition of an Eigen call does not hold. -/
  | eigenAssert
deriving DecidableEq, Repr

/-- The messages of the `remark` calls of the source. -/
inductive Remark where
  /-- " No valid inputs: input matrix or row,column matrix contain null pointer " -/
  | noValidInputs
  /-- "Index matrices detected on inputs (indexing starts from 0), ignoring UI settings" -/
  | ignoringUISettings
  /-- " Specified matrix indices from UI settings exceed matrix dimensions " -/
  | exceedMatrixDimensions
  /-- "This module needs row indices, or column indices or both from UI or input matrices" -/
  | needsIndices
  /-- "Copying input matrix to output" -/
  | copyingInput
  /-- "Could not deal with input data. Copying input matrix to output" -/
  | couldNotDeal
deriving DecidableEq, Repr

deriving instance DecidableEq for Except

/-- What a call of an entry point does: the diagnostics it emits, in order, and
either the handle it returns or the error it throws. -/
structure Run where
  remarks : List Remark
  result : Except AlgorithmInputError MatrixHandle
deriving DecidableEq

/-- The algorithm parameters set in the constructor (lines 40-48) and read with
`get(Parameters::...)` in `run`. -/
structure Parameters where
  rowCheckBox : Bool := false
  columnCheckBox : Bool := false
  rowStartSpinBox : Int := 0
  columnStartSpinBox : Int := 0
  columnEndSpinBox : Int := 0
  rowEndSpinBox : Int := 0
deriving DecidableEq, Repr

/-! ## Matrix representations -/

namespace DenseMatrix

/-- The constructor `DenseMatrix(r, c)` behind `makeShared<DenseMatrix>(r, c)`.
Eigen leaves the coefficients uninitialised; the embedding fills them with 0. -/
def make (r c : Nat) : DenseMatrix :=
  ⟨r, c, List.replicate r (List.replicate c 0)⟩

/-- The constructor `DenseMatrix(r, c)` on signed sizes: Eigen asserts that
both are non-negative. -/
def makeChecked (r c : Int) : Except AlgorithmInputError DenseMatrix :=
  if 0 ≤ r ∧ 0 ≤ c then .ok (make r.toNat c.toNat) else .error .eigenAssert

/-- Read access `m.coeff(i, j)` and `m(i, j)`. -/
def coeff (m : DenseMatrix) (i j : Nat) : Int :=
  (m.data.getD i []).getD j 0

/-- Write access `m(i, j) = v`. -/
def set (m : DenseMatrix) (i j : Nat) (v : Int) : DenseMatrix :=
  { m with data := m.data.set i ((m.data.getD i []).set j v) }

/-- The row expression `m.row(i)`, coefficient by coefficient. -/
def row (m : DenseMatrix) (i : Nat) : List Int :=
  (List.range m.ncols).map (fun j => m.coeff i j)

/-- The column expression `m.col(j)`, coefficient by coefficient. -/
def col (m : DenseMatrix) (j : Nat) : List Int :=
  (List.range m.nrows).map (fun i => m.coeff i j)

/-- The row assignment `m.row(i) = v`. -/
def setRow (m : DenseMatrix) (i : Nat) (v : List Int) : DenseMatrix :=
  { m with data := m.data.set i v }

/-- The column assignment `m.col(j) = v`. -/
def setCol (m : DenseMatrix) (j : Nat) (v : List Int) : DenseMatrix :=
  { m with
    data := (List.range m.data.length).map (fun i => (m.data.getD i []).set j (v.getD i 0)) }

/-- Eigen's `m.block(startRow, startCol, blockRows, blockCols)` copied into a new
matrix.  The precondition is the `eigen_assert` of Eigen's `Block` constructor. -/
def block (m : DenseMatrix) (startRow startCol blockRows blockCols : Int) :
    Except AlgorithmInputError DenseMatrix :=
  if 0 ≤ startRow ∧ 0 ≤ blockRows ∧ startRow ≤ (m.nrows : Int) - blockRows ∧
      0 ≤ startCol ∧ 0 ≤ blockCols ∧ startCol ≤ (m.ncols : Int) - blockCols then
    .ok ⟨blockRows.toNat, blockCols.toNat,
      (List.range blockRows.toNat).map (fun i =>
        (List.range blockCols.toNat).map (fun j =>
          m.coeff (startRow.toNat + i) (startCol.toNat + j)))⟩
  else .error .eigenAssert

/-- The representation invariant of a dense matrix: `nrows` rows of `ncols`
coefficients each. -/
def WF (m : DenseMatrix) : Prop :=
  m.data.length = m.nrows ∧ ∀ r ∈ m.data, r.length = m.ncols

instance (m : DenseMatrix) : Decidable m.WF := by
  unfold WF; infer_instance

end DenseMatrix

namespace DenseColumnMatrix

/-- The number of rows of a column vector. -/
def nrows (m : DenseColumnMatrix) : Nat := m.data.length

/-- The number of columns of a column vector: always one. -/
def ncols (_ : DenseColumnMatrix) : Nat := 1

/-- Read access `m.coeff(i)`. -/
def coeff (m : DenseColumnMatrix) (i : Nat) : Int := m.data.getD i 0

end DenseColumnMatrix

namespace SparseRowMatrix

/-- Read access `m.coeff(i, j)`: the stored coefficient, 0 where none is stored. -/
def coeff (m : SparseRowMatrix) (i j : Nat) : Int :=
  match m.entries.find? (fun e => e.1 == i && e.2.1 == j) with
  | some e => e.2.2
  | none => 0

/-- The sparse vector `m.row(i)`: the stored coefficients of row `i` as
(column, value), in storage order; this is what an `InnerIterator` visits. -/
def row (m : SparseRowMatrix) (i : Nat) : List (Nat × Int) :=
  (m.entries.filter (fun e => e.1 == i)).map (fun e => (e.2.1, e.2.2))

/-- The sparse vector `m.col(j)`: the stored coefficients of column `j` as
(row, value), in storage order. -/
def col (m : SparseRowMatrix) (j : Nat) : List (Nat × Int) :=
  (m.entries.filter (fun e => e.2.1 == j)).map (fun e => (e.1, e.2.2))

/-- Eigen's `m.block(startRow, startCol, blockRows, blockCols)` copied into a new
sparse matrix: the stored coefficients inside the block, re-addressed relative
to its corner.  The precondition is the `eigen_assert` of the block
constructor. -/
def block (m : SparseRowMatrix) (startRow startCol blockRows blockCols : Int) :
    Except AlgorithmInputError SparseRowMatrix :=
  if 0 ≤ startRow ∧ 0 ≤ blockRows ∧ startRow ≤ (m.nrows : Int) - blockRows ∧
      0 ≤ startCol ∧ 0 ≤ blockCols ∧ startCol ≤ (m.ncols : Int) - blockCols then
    .ok ⟨blockRows.toNat, blockCols.toNat,
      (m.entries.filter (fun e =>
          decide (startRow.toNat ≤ e.1) && decide (e.1 < startRow.toNat + blockRows.toNat) &&
          decide (startCol.toNat ≤ e.2.1) && decide (e.2.1 < startCol.toNat + blockCols.toNat))).map
        (fun e => (e.1 - startRow.toNat, e.2.1 - startCol.toNat, e.2.2))⟩
  else .error .eigenAssert

/-- The representation invariant of a sparse matrix: every stored coefficient
lies inside the shape. -/
def WF (m : SparseRowMatrix) : Prop :=
  ∀ e ∈ m.entries, e.1 < m.nrows ∧ e.2.1 < m.ncols

instance (m : SparseRowMatrix) : Decidable m.WF := by
  unfold WF; infer_instance

end SparseRowMatrix

namespace Matrix

/-- The virtual `nrows()` of the matrix base class. -/
def nrows : Matrix → Nat
  | .dense m => m.nrows
  | .sparse m => m.nrows
  | .column m => m.nrows
  | .other r _ => r

/-- The virtual `ncols()` of the matrix base class. -/
def ncols : Matrix → Nat
  | .dense m => m.ncols
  | .sparse m => m.ncols
  | .column m => m.ncols
  | .other _ c => c

end Matrix

/-- Modelled from the spec: `IsFinite` is declared outside the sources at hand.
The spec says that no NaN or infinity is representable in an integer index, so
the test holds for every index. -/
def IsFinite (_ : index_type) : Bool := true

/-! ## The coordinate map of the sparse path -/

namespace SparseRowMatrixFromMap

/-- Modelled from the spec: `SparseRowMatrixFromMap::Values` is declared outside
the sources at hand.  It is the intermediate sparse coordinate map
(row → column → value); the embedding keeps it as a list of
((row, column), value) sorted by row, then column, one entry per coordinate. -/
abbrev Values := List ((index_type × index_type) × Int)

/-- The order in which the nested maps are traversed: by row, then by column. -/
def keyLt (a b : index_type × index_type) : Bool :=
  decide (a.1 < b.1) || (decide (a.1 = b.1) && decide (a.2 < b.2))

/-- The assignment `values[row][col] = v`: a later insertion for the same
coordinate replaces the earlier one. -/
def insert (k : index_type × index_type) (v : Int) : Values → Values
  | [] => [(k, v)]
  | (k1, v1) :: rest =>
    if k = k1 then (k, v) :: rest
    else if keyLt k k1 then (k, v) :: (k1, v1) :: rest
    else (k1, v1) :: insert k v rest

/-- Modelled from the spec: `SparseRowMatrixFromMap::make` is defined outside
the sources at hand.  The output is materialised into the final sparse structure
once all entries are collected in the coordinate map. -/
def make (m n : Nat) (values : Values) : SparseRowMatrix :=
  ⟨m, n, values.map (fun e => (e.1.1.toNat, e.1.2.toNat, e.2))⟩

end SparseRowMatrixFromMap

/-! ## The algorithm -/

namespace SelectSubMatrixAlgorithm

/-- Lines 255-298 of the explicit-index entry point: the sparse matrix that the
source assembles in the local variable `output_matrix`. -/
def sparse_output_matrix (sparse_matrix : SparseRowMatrix) (rows cols : List index_type) :
    SparseRowMatrix :=
  let m : Nat := sparse_matrix.nrows
  let n : Nat := sparse_matrix.ncols
  let additionalData : SparseRowMatrixFromMap.Values := []
  -- lines 260-273: get only the indices intersection
  let (m, n, additionalData) :=
    if !rows.isEmpty && !cols.isEmpty then
      (rows.length, cols.length,
        rows.foldl (fun data row =>
          cols.foldl (fun data col =>
            let tmp := sparse_matrix.coeff row.toNat col.toNat
            if tmp ≠ 0 then SparseRowMatrixFromMap.insert (row, col) tmp data else data)
            data) additionalData)
    else (m, n, additionalData)
  -- lines 274-285
  let (m, additionalData) :=
    if !rows.isEmpty && cols.isEmpty then
      (rows.length,
        (List.range rows.length).foldl (fun data i =>
          let matrix_row := sparse_matrix.row (rows.getD i 0).toNat
          matrix_row.foldl (fun data it =>
            SparseRowMatrixFromMap.insert (rows.getD i 0, (it.1 : Int)) it.2 data) data)
          additionalData)
    else (m, additionalData)
  -- lines 286-297
  let (n, additionalData) :=
    if rows.isEmpty && !cols.isEmpty then
      (cols.length,
        (List.range cols.length).foldl (fun data j =>
          let matrix_col := sparse_matrix.col (cols.getD j 0).toNat
          matrix_col.foldl (fun data it =>
            SparseRowMatrixFromMap.insert ((it.1 : Int), cols.getD j 0) it.2 data) data)
          additionalData)
    else (n, additionalData)
  SparseRowMatrixFromMap.make m n additionalData

/-- Lines 304-337 of the explicit-index entry point: the dense input.  The
result is `none` when no `return` of the block is reached. -/
def dense_selection (dense_input_matrix : DenseMatrix) (m n : Nat)
    (rows cols : List index_type) : Option DenseMatrix :=
  if !rows.isEmpty && !cols.isEmpty then
    let output := DenseMatrix.make rows.length cols.length
    let output := (List.range rows.length).foldl (fun output i =>
      (List.range cols.length).foldl (fun output j =>
        output.set i j
          (dense_input_matrix.coeff (rows.getD i 0).toNat (cols.getD j 0).toNat)) output) output
    some output
  else if !rows.isEmpty && cols.isEmpty then
    let output := DenseMatrix.make rows.length n
    let output := (List.range rows.length).foldl (fun output i =>
      output.setRow i (dense_input_matrix.row (rows.getD i 0).toNat)) output
    some output
  else if rows.isEmpty && !cols.isEmpty then
    let output := DenseMatrix.make m cols.length
    let output := (List.range cols.length).foldl (fun output i =>
      output.setCol i (dense_input_matrix.col (cols.getD i 0).toNat)) output
    some output
  else none

/-- Lines 338-381 of the explicit-index entry point: the column-vector input. -/
def column_selection (input_matrix : Matrix) (first_column : DenseColumnMatrix)
    (rows cols : List index_type) : Except AlgorithmInputError DenseMatrix :=
  if input_matrix.ncols ≠ 1 then .error .notAColumnMatrix
  else if input_matrix.nrows = 0 then .error .emptyColumnMatrix
  else if !cols.isEmpty && cols.any (fun col => col ≠ 0) then .error .badColumnIndices
  else if rows.isEmpty then .error .noRows
  else if first_column.nrows ≤ 0 ∨ first_column.ncols ≠ 1 then .error .conversionToColumnFailed
  else
    let output := DenseMatrix.make rows.length 1
    (List.range rows.length).foldlM (fun output i =>
      if IsFinite (rows.getD i 0) ∧ rows.getD i 0 > 0 ∧
          rows.getD i 0 < (input_matrix.nrows : Int) then
        .ok (output.set i 0 (first_column.coeff (rows.getD i 0).toNat))
      else .error .columnIndexOutOfRange) output

/-- The overload `run(MatrixHandle, const std::vector<index_type>&,
const std::vector<index_type>&)`, lines 226-389: the explicit-index entry
point. -/
def run_vector (input_matrix : MatrixHandle) (rows cols : List index_type) : Run :=
  match input_matrix with
  | none => ⟨[], .error .noInputMatrix⟩
  | some input =>
    if rows.isEmpty && cols.isEmpty then ⟨[], .error .noIndices⟩
    else
      let m : size_type := input.nrows
      let n : size_type := input.ncols
      if rows.any (fun r => decide (r ≥ m) || decide (r < 0) || !IsFinite r) then
        ⟨[], .error .selectedRowExceeds⟩
      else if cols.any (fun c => decide (c ≥ n) || decide (c < 0) || !IsFinite c) then
        ⟨[], .error .selectedColumnExceeds⟩
      else
        match input with
        | .sparse sparse_matrix =>
          -- the assembled matrix is a local of the block and is dropped at line 299
          let _output_matrix := sparse_output_matrix sparse_matrix rows cols
          ⟨[.couldNotDeal], .ok (some input)⟩
        | .dense dense_input_matrix =>
          match dense_selection dense_input_matrix input.nrows input.ncols rows cols with
          | some output => ⟨[], .ok (some (.dense output))⟩
          | none => ⟨[.couldNotDeal], .ok (some input)⟩
        | .column first_column =>
          match column_selection input first_column rows cols with
          | .ok output => ⟨[], .ok (some (.dense output))⟩
          | .error e => ⟨[], .error e⟩
        | .other _ _ => ⟨[], .error .unknownMatrixType⟩

/-- Lines 57-72 (and 75-87) of `get_sub_matrix`: an index matrix is copied into
an index vector, with a running `count`. -/
def flatten_indices (indices : DenseMatrixHandle) : List index_type :=
  match indices with
  | none => []
  | some rows =>
    if rows.nrows > 0 && rows.ncols > 0 then
      let nr := rows.nrows
      let nc := rows.ncols
      let nr := if nr = 0 then 1 else nr
      let nc := if nc = 0 then 1 else nc
      let sel_rows : List index_type := List.replicate (nr * nc) 0
      let state := (List.range nr).foldl (fun state i =>
        (List.range nc).foldl (fun (state : List index_type × Nat) j =>
          (state.1.set state.2 (rows.coeff i j), state.2 + 1)) state) (sel_rows, 0)
      state.1
    else []

/-- The function `get_sub_matrix`, lines 50-89. -/
def get_sub_matrix (input_matrix : MatrixHandle) (rows cols : DenseMatrixHandle) : Run :=
  let sel_rows := flatten_indices rows
  let sel_cols := flatten_indices cols
  run_vector input_matrix sel_rows sel_cols

/-- Lines 122-148 of `run`: the four range values after the adjustment.  The
components are `(row_start, row_end, col_start, col_end)`; from here on
`row_end` and `col_end` hold lengths when no index matrix is supplied. -/
def resolve_range (params : Parameters) (input_matrix : Matrix) (has_indices : Bool) :
    index_type × index_type × index_type × index_type :=
  let row_select := params.rowCheckBox
  let col_select := params.columnCheckBox
  let row_start := params.rowStartSpinBox
  let row_end := params.rowEndSpinBox
  let col_start := params.columnStartSpinBox
  let col_end := params.columnEndSpinBox
  if !has_indices then
    if row_select && col_select then
      (row_start, row_end - row_start + 1, col_start, col_end - col_start + 1)
    else if row_select && !col_select then
      (row_start, row_end - row_start + 1, 0, (input_matrix.ncols : Int))
    else if !row_select && col_select then
      (0, (input_matrix.nrows : Int), col_start, col_end - col_start + 1)
    else
      (0, (input_matrix.nrows : Int), 0, (input_matrix.ncols : Int))
  else (row_start, row_end, col_start, col_end)

/-- The conversion of a signed 64-bit `index_type` to `size_t`.  The matrix base
class declares `nrows()` and `ncols()` with the unsigned type `size_t`, so where
the source compares an `index_type` with one of them (lines 149-150, 186 and
190) C++ first converts the signed operand: the value modulo 2^64, which sends
a negative value above every matrix dimension. -/
def to_size_t (x : index_type) : Int := x % 2 ^ 64

/-- Lines 149-150 of `run`: the test that guards the rest of the function.  The
two comparisons with `nrows()` and `ncols()` are unsigned. -/
def exceeds_dimensions (input_matrix : Matrix)
    (range : index_type × index_type × index_type × index_type) : Bool :=
  decide (range.1 < 0) || decide (range.2.2.1 < 0) ||
    decide (to_size_t range.2.1 > (input_matrix.nrows : Int)) ||
    decide (to_size_t range.2.2.2 > (input_matrix.ncols : Int))

/-- Lines 176-216 of `run`: the column-vector input in range mode.  The
comparisons of lines 186 and 190 with `nrows()` are unsigned. -/
def column_range (input_matrix : Matrix) (first_column : DenseColumnMatrix)
    (row_start row_end col_start col_end : index_type) :
    Except AlgorithmInputError DenseMatrix :=
  if input_matrix.ncols ≠ 1 then .error .notAColumnMatrix
  else if input_matrix.nrows = 0 then .error .emptyColumnMatrix
  else if row_start < 0 ∨ to_size_t row_end ≥ (input_matrix.nrows : Int) then
    .error .guiRowIndicesExceed
  else if col_start < 0 ∨ to_size_t col_end ≥ (input_matrix.nrows : Int) then
    .error .guiRowIndicesExceed
  else if first_column.nrows ≤ 0 ∨ first_column.ncols ≠ 1 then .error .conversionToColumnFailed
  else do
    let output ← DenseMatrix.makeChecked (row_end - row_start + 1) 1
    (List.range (row_end - row_start + 1).toNat).foldlM (fun output i =>
      if i < output.nrows then
        .ok (output.set i 0 (first_column.coeff (row_start + (i : Int)).toNat))
      else .error .columnIndexOutOfRange) output

/-- The overload `run(MatrixHandle, DenseMatrixHandle, DenseMatrixHandle)`, lines
91-224: the entry point on index matrices and range parameters.  The parameters
the source reads with `get` are the argument `params`. -/
def run (params : Parameters) (input_matrix : MatrixHandle)
    (row_indices col_indices : DenseMatrixHandle) : Run :=
  match input_matrix with
  | none => ⟨[.noValidInputs], .ok none⟩
  | some input =>
    if input.nrows = 0 ∨ input.ncols = 0 then ⟨[.noValidInputs], .ok none⟩
    else
      let row_select := params.rowCheckBox
      let col_select := params.columnCheckBox
      let has_indices := row_indices.isSome || col_indices.isSome
      -- lines 108-112 return only on a null input, which was handled above
      let remarks : List Remark :=
        if has_indices && (row_select || col_select) then [.ignoringUISettings] else []
      let range := resolve_range params input has_indices
      if exceeds_dimensions input range then
        ⟨remarks ++ [.exceedMatrixDimensions], .ok none⟩
      else if has_indices then
        let sub := get_sub_matrix input_matrix row_indices col_indices
        ⟨remarks ++ sub.remarks, sub.result⟩
      else
        match input with
        | .sparse sparse_matrix =>
          match sparse_matrix.block range.1 range.2.2.1 range.2.1 range.2.2.2 with
          | .ok mat => ⟨remarks, .ok (some (.sparse mat))⟩
          | .error e => ⟨remarks, .error e⟩
        | .dense dense_matrix =>
          match dense_matrix.block range.1 range.2.2.1 range.2.1 range.2.2.2 with
          | .ok mat => ⟨remarks, .ok (some (.dense mat))⟩
          | .error e => ⟨remarks, .error e⟩
        | .column first_column =>
          match column_range input first_column range.1 range.2.1 range.2.2.1 range.2.2.2 with
          | .ok output => ⟨remarks, .ok (some (.dense output))⟩
          | .error e => ⟨remarks, .error e⟩
        | .other _ _ => ⟨remarks ++ [.needsIndices, .copyingInput], .ok (some input)⟩

end SelectSubMatrixAlgorithm

/-! ## Vocabulary of the specification -/

namespace matrix_cast

/-- The cast `matrix_cast::as_dense` of `MatrixTypeConversions.cc`: a dynamic
cast, null on any other representation. -/
def as_dense : Matrix → Option DenseMatrix
  | .dense m => some m
  | _ => none

/-- The cast `matrix_cast::as_sparse` of `MatrixTypeConversions.cc`. -/
def as_sparse : Matrix → Option SparseRowMatrix
  | .sparse m => some m
  | _ => none

end matrix_cast

namespace matrix_is

/-- The test `matrix_is::dense` of `MatrixTypeConversions.cc`. -/
def dense (mh : Matrix) : Bool := (matrix_cast.as_dense mh).isSome

/-- The test `matrix_is::sparse` of `MatrixTypeConversions.cc`. -/
def sparse (mh : Matrix) : Bool := (matrix_cast.as_sparse mh).isSome

end matrix_is

/-- The representation invariant of the matrix behind a handle. -/
def Matrix.WF : Matrix → Prop
  | .dense m => m.WF
  | .sparse m => m.WF
  | .column _ => True
  | .other _ _ => True

instance (M : Matrix) : Decidable M.WF := by
  cases M <;> unfold Matrix.WF <;> infer_instance

/-- The error kind `IndexOutOfRange` of the specification: the messages thrown
by the two validation loops of lines 239-253. -/
def AlgorithmInputError.isIndexOutOfRange : AlgorithmInputError → Bool
  | .selectedRowExceeds => true
  | .selectedColumnExceeds => true
  | _ => false

/-- The explicit index list `[a, a+1, …, b]` of the specification's range
equivalence. -/
def index_range (a b : Int) : List Int :=
  (List.range (b - a + 1).toNat).map (fun (k : Nat) => a + (k : Int))

/-- The table `f` with `n` rows of `nc` entries written row after row: the
row-major flattening of the specification. -/
def row_major (f : Nat → Nat → Int) (n nc : Nat) : List Int :=
  ((List.range n).map (fun i => (List.range nc).map (f i))).flatten

/-! ## Concrete inputs

The inputs of the scenarios of the specification, and of the places where the
source departs from it. -/

namespace Example

/-- The 4×4 dense matrix with `M[i][j] = 4 * i + j`. -/
def dense4x4 : DenseMatrix :=
  ⟨4, 4, [[0, 1, 2, 3], [4, 5, 6, 7], [8, 9, 10, 11], [12, 13, 14, 15]]⟩

/-- A 4×3 dense matrix with `M[i][j] = 3 * i + j`. -/
def dense4x3 : DenseMatrix :=
  ⟨4, 3, [[0, 1, 2], [3, 4, 5], [6, 7, 8], [9, 10, 11]]⟩

/-- A 5×2 dense matrix. -/
def dense5x2 : DenseMatrix :=
  ⟨5, 2, [[0, 1], [10, 11], [20, 21], [30, 31], [40, 41]]⟩

/-- The 3×3 sparse matrix whose only stored entries are `M[0][0] = 5` and
`M[2][2] = 7`. -/
def sparse3x3 : SparseRowMatrix :=
  ⟨3, 3, [(0, 0, 5), (2, 2, 7)]⟩

/-- The column vector `[10, 20, 30, 40, 50]`. -/
def column5 : DenseColumnMatrix :=
  ⟨[10, 20, 30, 40, 50]⟩

/-- The column vector `[10, 20, 30]`. -/
def column3 : DenseColumnMatrix :=
  ⟨[10, 20, 30]⟩

/-- The 1×1 index matrix holding the index 0. -/
def index0 : DenseMatrix :=
  ⟨1, 1, [[0]]⟩

/-- Scenario D: range mode on rows 1 to 2, the column toggle off. -/
def rows1to2 : Parameters :=
  { rowCheckBox := true, rowStartSpinBox := 1, rowEndSpinBox := 2 }

/-- Range mode on rows 1 to 2 and columns 1 to 3. -/
def rows1to2cols1to3 : Parameters :=
  { rowCheckBox := true, columnCheckBox := true, rowStartSpinBox := 1, rowEndSpinBox := 2,
    columnStartSpinBox := 1, columnEndSpinBox := 3 }

/-- Range mode on rows 1 to 4: on a matrix of 4 rows the inclusive end is one
past the last row. -/
def rows1to4 : Parameters :=
  { rowCheckBox := true, rowStartSpinBox := 1, rowEndSpinBox := 4 }

/-- The row toggle set with the row range 0 to 5. -/
def rows0to5 : Parameters :=
  { rowCheckBox := true, rowStartSpinBox := 0, rowEndSpinBox := 5 }

/-- The parameters as the constructor sets them (lines 42-47). -/
def defaults : Parameters := {}

/-- The row toggle set with the row range 0 to 2. -/
def rows0to2 : Parameters :=
  { rowCheckBox := true, rowStartSpinBox := 0, rowEndSpinBox := 2 }

/-- The row toggle set with a row range that starts below 0. -/
def rowsFromMinus1 : Parameters :=
  { rowCheckBox := true, rowStartSpinBox := -1, rowEndSpinBox := 2 }

/-- The row toggle set with the row range 2 to 3. -/
def rows2to3 : Parameters :=
  { rowCheckBox := true, rowStartSpinBox := 2, rowEndSpinBox := 3 }

/-- The row toggle set with the row range 3 to 3. -/
def rows3to3 : Parameters :=
  { rowCheckBox := true, rowStartSpinBox := 3, rowEndSpinBox := 3 }

/-- Both toggles set, the row range 0 to 2 and the column range 0 to 0. -/
def rows0to2col0 : Parameters :=
  { rowCheckBox := true, columnCheckBox := true, rowStartSpinBox := 0, rowEndSpinBox := 2,
    columnStartSpinBox := 0, columnEndSpinBox := 0 }

/-- Both toggles set, the row range 0 to 2 and a column range whose end lies
below its start by 2: the resolved column length is -1. -/
def rows0to2cols2to0 : Parameters :=
  { rowCheckBox := true, columnCheckBox := true, rowStartSpinBox := 0, rowEndSpinBox := 2,
    columnStartSpinBox := 2, columnEndSpinBox := 0 }

/-- The row toggle set with a row range whose end lies below its start by 3: the
resolved row length is -2. -/
def rows3to0 : Parameters :=
  { rowCheckBox := true, rowStartSpinBox := 3, rowEndSpinBox := 0 }

/-- A 2×3 index matrix. -/
def index2x3 : DenseMatrix :=
  ⟨2, 3, [[3, 1, 2], [0, 2, 1]]⟩

/-- A dense matrix with no rows and three columns. -/
def dense0x3 : DenseMatrix :=
  ⟨0, 3, []⟩

end Example

/-! ## Lemmas on the loops of the source -/

theorem foldl_set_range {α : Type} (g : Nat → α → α) (d : α) (n : Nat) (l : List α)
    (hn : n ≤ l.length) :
    (List.range n).foldl (fun acc i => acc.set i (g i (acc.getD i d))) l
      = (List.range n).map (fun i => g i (l.getD i d)) ++ l.drop n := by
  induction n with
  | zero => simp
  | succ n ih =>
    have hlt : n < l.length := by omega
    rw [List.range_succ, List.foldl_append, ih (by omega)]
    have hdrop : l.drop n = l[n] :: l.drop (n + 1) := by
      rw [List.drop_eq_getElem_cons hlt]
    have hlen : ((List.range n).map (fun i => g i (l.getD i d))).length = n := by simp
    simp only [List.foldl_cons, List.foldl_nil, List.map_append, List.map_cons, List.map_nil]
    rw [List.getD_append_right _ _ _ _ (by simp), List.set_append_right _ _ (by simp)]
    simp only [hlen, Nat.sub_self, hdrop, List.set_cons_zero, List.getD_cons_zero]
    simp [List.getD_eq_getElem?_getD, hlt]

theorem set_getD_self {α : Type} (l : List α) (i : Nat) (d : α) (h : i < l.length) :
    l.set i (l.getD i d) = l := by
  apply List.ext_getElem (by simp)
  intro k h1 h2
  simp only [List.getElem_set, List.getD_eq_getElem?_getD, h, List.getElem?_eq_getElem,
    Option.getD_some]
  split
  · next hik => subst hik; rfl
  · rfl

theorem range_map_getD {α β : Type} (l : List α) (d : α) (f : α → β) :
    (List.range l.length).map (fun i => f (l.getD i d)) = l.map f := by
  apply List.ext_getElem
  · simp
  · intro i h1 h2
    simp at h1
    simp [List.getD_eq_getElem?_getD, h1]

theorem isEmpty_eq_false_of_ne_nil {α : Type} {l : List α} (h : l ≠ []) :
    l.isEmpty = false := by
  cases l with
  | nil => exact absurd rfl h
  | cons a t => rfl

/-- The inner loop of lines 312-314 writes one row of the output. -/
theorem foldl_set_row (f : Nat → Int) (i c : Nat) (out : DenseMatrix)
    (hi : i < out.data.length) :
    (List.range c).foldl (fun out j => out.set i j (f j)) out
      = ⟨out.nrows, out.ncols,
          out.data.set i
            ((List.range c).foldl (fun row j => row.set j (f j)) (out.data.getD i []))⟩ := by
  induction c with
  | zero =>
    cases out with
    | mk nr nc data =>
      simp only at hi
      simp only [List.range_zero, List.foldl_nil]
      rw [set_getD_self _ _ _ hi]
  | succ c ih =>
    rw [List.range_succ, List.foldl_append, ih, List.foldl_append]
    simp [DenseMatrix.set, List.getD_eq_getElem?_getD, hi]

/-- The loop nest of lines 312-314 after `n` rounds of the outer loop: the first
`n` rows are written, the others are as allocated. -/
theorem dense_both_loop (f : Nat → Nat → Int) (r c n : Nat) (hn : n ≤ r) :
    (List.range n).foldl (fun out i =>
        (List.range c).foldl (fun out j => out.set i j (f i j)) out) (DenseMatrix.make r c)
      = ⟨r, c, (List.range n).map (fun i => (List.range c).map (f i))
          ++ List.replicate (r - n) (List.replicate c 0)⟩ := by
  induction n with
  | zero => simp [DenseMatrix.make]
  | succ n ih =>
    have hlt : n < r := by omega
    rw [List.range_succ, List.foldl_append, ih (by omega)]
    simp only [List.foldl_cons, List.foldl_nil]
    rw [foldl_set_row _ _ _ _ (by simp; omega)]
    have hrow := foldl_set_range (fun j (_ : Int) => f n j) 0 c (List.replicate c 0) (by simp)
    simp only [List.drop_replicate, Nat.sub_self, List.replicate_zero, List.append_nil] at hrow
    have hrep : List.replicate (r - n) (List.replicate c (0 : Int))
        = List.replicate c 0 :: List.replicate (r - (n + 1)) (List.replicate c 0) := by
      have : r - n = (r - (n + 1)) + 1 := by omega
      rw [this, List.replicate_succ]
    simp only [DenseMatrix.mk.injEq, true_and]
    rw [List.getD_append_right _ _ _ _ (by simp), List.set_append_right _ _ (by simp)]
    simp only [List.length_map, List.length_range, Nat.sub_self, hrep, List.getD_cons_zero,
      List.set_cons_zero, hrow, List.map_append, List.map_cons, List.map_nil,
      List.append_assoc, List.singleton_append]

namespace SelectSubMatrixAlgorithm

/-- Lines 308-317 in closed form: both index lists given. -/
theorem dense_selection_both (A : DenseMatrix) (m n : Nat) (R C : List Int)
    (hR : R ≠ []) (hC : C ≠ []) :
    dense_selection A m n R C
      = some ⟨R.length, C.length, R.map (fun r => C.map (fun c => A.coeff r.toNat c.toNat))⟩ := by
  unfold dense_selection
  rw [isEmpty_eq_false_of_ne_nil hR, isEmpty_eq_false_of_ne_nil hC]
  simp only [Bool.not_false, Bool.and_self, if_true]
  rw [dense_both_loop (fun i j => A.coeff (R.getD i 0).toNat (C.getD j 0).toNat) R.length C.length
    R.length (le_refl _)]
  simp only [Nat.sub_self, List.replicate_zero, List.append_nil]
  have h1 : ∀ i, (List.range C.length).map (fun j => A.coeff (R.getD i 0).toNat (C.getD j 0).toNat)
      = C.map (fun c => A.coeff (R.getD i 0).toNat c.toNat) := by
    intro i
    exact range_map_getD C 0 (fun c => A.coeff (R.getD i 0).toNat c.toNat)
  simp only [h1]
  rw [range_map_getD R 0 (fun r => C.map (fun c => A.coeff r.toNat c.toNat))]

/-- The validation loops of lines 239-253 let a list of in-range indices pass. -/
theorem validation_passes (l : List Int) (n : Nat)
    (h : ∀ i ∈ l, 0 ≤ i ∧ i < (n : Int)) :
    l.any (fun r => decide (r ≥ (n : Int)) || decide (r < 0) || !IsFinite r) = false := by
  rw [List.any_eq_false]
  intro x hx
  obtain ⟨h0, h1⟩ := h x hx
  have hx0 : decide (x ≥ (n : Int)) = false := decide_eq_false (by omega)
  have hx1 : decide (x < 0) = false := decide_eq_false (by omega)
  simp [hx0, hx1, IsFinite]

end SelectSubMatrixAlgorithm

/-- The loop of lines 322-323 only touches the rows of the output. -/
theorem foldl_setRow (v : Nat → List Int) (l : List Nat) (out : DenseMatrix) :
    l.foldl (fun out i => out.setRow i (v i)) out
      = ⟨out.nrows, out.ncols, l.foldl (fun d i => d.set i (v i)) out.data⟩ := by
  induction l generalizing out with
  | nil => rfl
  | cons a t ih =>
    rw [List.foldl_cons, ih]
    rfl

/-- A well-formed dense matrix is the table of its coefficients. -/
theorem DenseMatrix.data_eq_of_WF (A : DenseMatrix) (h : A.WF) :
    (List.range A.nrows).map (fun i => (List.range A.ncols).map (fun j => A.coeff i j))
      = A.data := by
  obtain ⟨h1, h2⟩ := h
  apply List.ext_getElem
  · simp [h1]
  · intro i hi1 hi2
    have hrow : (A.data[i]).length = A.ncols := h2 _ (List.getElem_mem _)
    apply List.ext_getElem
    · simp [hrow]
    · intro j hj1 hj2
      simp [DenseMatrix.coeff, List.getD_eq_getElem?_getD, hi2, hj2]

/-- Reading a coefficient of a matrix given as a table. -/
theorem DenseMatrix.coeff_mk_map (r c : Nat) (f : Nat → Nat → Int) (i j : Nat)
    (hi : i < r) (hj : j < c) :
    (DenseMatrix.mk r c ((List.range r).map (fun i => (List.range c).map (f i)))).coeff i j
      = f i j := by
  simp [DenseMatrix.coeff, List.getD_eq_getElem?_getD, hi, hj]

theorem index_range_ne_nil (a b : Int) (h : a ≤ b) : index_range a b ≠ [] := by
  unfold index_range
  intro hnil
  have := congrArg List.length hnil
  simp only [List.length_map, List.length_range, List.length_nil] at this
  omega

theorem index_range_bounds (a b : Int) (n : Nat) (ha : 0 ≤ a) (hb : b < (n : Int)) :
    ∀ i ∈ index_range a b, 0 ≤ i ∧ i < (n : Int) := by
  intro i hi
  simp only [index_range, List.mem_map, List.mem_range] at hi
  obtain ⟨k, hk, rfl⟩ := hi
  have hk2 : (k : Int) < b - a + 1 := by omega
  constructor
  · omega
  · omega

/-- The block that covers a well-formed sparse matrix is the matrix. -/
theorem SparseRowMatrix.block_full (S : SparseRowMatrix) (h : S.WF) :
    S.block 0 0 (S.nrows : Int) (S.ncols : Int) = .ok S := by
  unfold SparseRowMatrix.block
  rw [if_pos ⟨le_refl _, by omega, by omega, le_refl _, by omega, by omega⟩]
  have hf : S.entries.filter (fun e =>
      decide ((0 : Int).toNat ≤ e.1) && decide (e.1 < (0 : Int).toNat + (S.nrows : Int).toNat) &&
      decide ((0 : Int).toNat ≤ e.2.1) && decide (e.2.1 < (0 : Int).toNat + (S.ncols : Int).toNat))
      = S.entries := by
    rw [List.filter_eq_self]
    intro e he
    obtain ⟨h1, h2⟩ := h e he
    simp [h1, h2]
  rw [hf]
  cases S with
  | mk nr nc entries => simp

namespace SelectSubMatrixAlgorithm

/-- Lines 319-325 in closed form: only the row list given. -/
theorem dense_selection_rows (A : DenseMatrix) (m n : Nat) (R : List Int) (hR : R ≠ []) :
    dense_selection A m n R [] = some ⟨R.length, n, R.map (fun r => A.row r.toNat)⟩ := by
  unfold dense_selection
  rw [isEmpty_eq_false_of_ne_nil hR]
  simp only [List.isEmpty_nil, Bool.not_false, Bool.not_true, Bool.and_false, Bool.false_eq_true,
    if_false, Bool.and_self, if_true]
  rw [foldl_setRow (fun i => A.row (R.getD i 0).toNat)]
  have h := foldl_set_range (fun i (_ : List Int) => A.row (R.getD i 0).toNat) [] R.length
    (List.replicate R.length (List.replicate n 0)) (by simp)
  simp only [DenseMatrix.make]
  rw [h, range_map_getD R 0 (fun r => A.row r.toNat)]
  simp

/-- The validation loops of lines 239-253 stop at an index out of range. -/
theorem validation_fails (l : List Int) (n : Nat)
    (h : ∃ i ∈ l, i < 0 ∨ i ≥ (n : Int)) :
    l.any (fun r => decide (r ≥ (n : Int)) || decide (r < 0) || !IsFinite r) = true := by
  rw [List.any_eq_true]
  obtain ⟨x, hx, hbad⟩ := h
  refine ⟨x, hx, ?_⟩
  rcases hbad with hbad | hbad
  · simp [hbad]
  · simp [hbad]

/-- The explicit-index entry point on a dense input with both lists, lines
226-317, in closed form. -/
theorem run_vector_dense_both (A : DenseMatrix) (R C : List Int)
    (hR : R ≠ []) (hC : C ≠ [])
    (hRr : ∀ i ∈ R, 0 ≤ i ∧ i < (A.nrows : Int))
    (hCc : ∀ j ∈ C, 0 ≤ j ∧ j < (A.ncols : Int)) :
    run_vector (some (.dense A)) R C
      = ⟨[], .ok (some (.dense ⟨R.length, C.length,
          R.map (fun r => C.map (fun c => A.coeff r.toNat c.toNat))⟩))⟩ := by
  simp only [run_vector, isEmpty_eq_false_of_ne_nil hR, Bool.false_and, Matrix.nrows,
    Matrix.ncols, validation_passes R A.nrows hRr, validation_passes C A.ncols hCc,
    dense_selection_both A _ _ R C hR hC]
  simp

/-- The conversion to `size_t` does not enlarge a non-negative value. -/
theorem to_size_t_le (x : Int) (h : 0 ≤ x) : to_size_t x ≤ x := by
  unfold to_size_t
  have hpos : (0 : Int) < 2 ^ 64 := by norm_num
  have hmod : x % 2 ^ 64 < 2 ^ 64 := Int.emod_lt_of_pos x hpos
  by_cases hx : x < 2 ^ 64
  · rw [Int.emod_eq_of_lt h hx]
  · omega

/-- The conversion to `size_t` keeps a value that fits 64 bits. -/
theorem to_size_t_eq (x : Int) (h : 0 ≤ x) (hx : x < 2 ^ 64) : to_size_t x = x := by
  unfold to_size_t
  exact Int.emod_eq_of_lt h hx

/-- Range mode on a dense input, lines 91-175, in closed form: when the four
resolved values describe a block inside the matrix, the block is returned. -/
theorem run_range_dense (p : Parameters) (A : DenseMatrix) (rs rl cs cl : Int)
    (hres : resolve_range p (.dense A) false = (rs, rl, cs, cl))
    (hr : 0 < A.nrows) (hc : 0 < A.ncols)
    (h1 : 0 ≤ rs) (h2 : 0 ≤ rl) (h3 : rs + rl ≤ (A.nrows : Int))
    (h4 : 0 ≤ cs) (h5 : 0 ≤ cl) (h6 : cs + cl ≤ (A.ncols : Int)) :
    run p (some (.dense A)) none none
      = ⟨[], .ok (some (.dense ⟨rl.toNat, cl.toNat,
          (List.range rl.toNat).map (fun i =>
            (List.range cl.toNat).map (fun j => A.coeff (rs.toNat + i) (cs.toNat + j)))⟩))⟩ := by
  have hex : exceeds_dimensions (.dense A) (rs, rl, cs, cl) = false := by
    have a1 : decide (rs < 0) = false := decide_eq_false (by omega)
    have a2 : decide (cs < 0) = false := decide_eq_false (by omega)
    have a3 : decide (to_size_t rl > (A.nrows : Int)) = false :=
      decide_eq_false (by have := to_size_t_le rl h2; omega)
    have a4 : decide (to_size_t cl > (A.ncols : Int)) = false :=
      decide_eq_false (by have := to_size_t_le cl h5; omega)
    simp [exceeds_dimensions, Matrix.nrows, Matrix.ncols, a1, a2, a3, a4]
  have hblock : A.block rs cs rl cl = .ok ⟨rl.toNat, cl.toNat,
          (List.range rl.toNat).map (fun i =>
            (List.range cl.toNat).map (fun j => A.coeff (rs.toNat + i) (cs.toNat + j)))⟩ := by
    unfold DenseMatrix.block
    rw [if_pos ⟨h1, h2, by omega, h4, h5, by omega⟩]
  have hr0 : ¬ (A.nrows = 0 ∨ A.ncols = 0) := by omega
  simp only [run, Matrix.nrows, Matrix.ncols, hr0, if_false, Option.isSome_none, Bool.or_self,
    Bool.false_and, hres, hex, hblock, Bool.false_eq_true]

/-- Passthrough on a sparse input, lines 91-169, in closed form. -/
theorem run_passthrough_sparse (p : Parameters) (S : SparseRowMatrix)
    (hrow : p.rowCheckBox = false) (hcol : p.columnCheckBox = false)
    (hS : S.WF) (hr : 0 < S.nrows) (hc : 0 < S.ncols) :
    run p (some (.sparse S)) none none = ⟨[], .ok (some (.sparse S))⟩ := by
  have hres : resolve_range p (.sparse S) false = (0, (S.nrows : Int), 0, (S.ncols : Int)) := by
    simp [resolve_range, hrow, hcol, Matrix.nrows, Matrix.ncols]
  have hex : exceeds_dimensions (.sparse S) (0, (S.nrows : Int), 0, (S.ncols : Int)) = false := by
    have a3 : decide (to_size_t (S.nrows : Int) > (S.nrows : Int)) = false :=
      decide_eq_false (by have := to_size_t_le (S.nrows : Int) (by omega); omega)
    have a4 : decide (to_size_t (S.ncols : Int) > (S.ncols : Int)) = false :=
      decide_eq_false (by have := to_size_t_le (S.ncols : Int) (by omega); omega)
    simp [exceeds_dimensions, Matrix.nrows, Matrix.ncols, a3, a4]
  have hr0 : ¬ (S.nrows = 0 ∨ S.ncols = 0) := by omega
  simp only [run, Matrix.nrows, Matrix.ncols, hr0, if_false, Option.isSome_none, Bool.or_self,
    Bool.false_and, hres, hex, SparseRowMatrix.block_full S hS, Bool.false_eq_true]

/-- Passthrough on a dense input, lines 91-175, in closed form. -/
theorem run_passthrough_dense (p : Parameters) (A : DenseMatrix)
    (hrow : p.rowCheckBox = false) (hcol : p.columnCheckBox = false)
    (hA : A.WF) (hr : 0 < A.nrows) (hc : 0 < A.ncols) :
    run p (some (.dense A)) none none = ⟨[], .ok (some (.dense A))⟩ := by
  have hres : resolve_range p (.dense A) false = (0, (A.nrows : Int), 0, (A.ncols : Int)) := by
    simp [resolve_range, hrow, hcol, Matrix.nrows, Matrix.ncols]
  rw [run_range_dense p A _ _ _ _ hres hr hc (le_refl _) (by omega) (by omega) (le_refl _)
    (by omega) (by omega)]
  have := DenseMatrix.data_eq_of_WF A hA
  cases A with
  | mk nr nc data =>
    simp only at this
    simp [this]

/-- With an index matrix supplied, the call is the explicit-index call on the
flattened lists as long as the four raw range values pass the test of lines
149-150: the two starts are not negative and the two ends lie between 0 and the
matrix dimension. -/
theorem run_index_matrices (p : Parameters) (M : Matrix) (ri ci : DenseMatrixHandle)
    (hidx : (ri.isSome || ci.isSome) = true) (hr : 0 < M.nrows) (hc : 0 < M.ncols)
    (h1 : 0 ≤ p.rowStartSpinBox) (h2 : 0 ≤ p.columnStartSpinBox)
    (h3 : p.rowEndSpinBox ≤ (M.nrows : Int)) (h4 : p.columnEndSpinBox ≤ (M.ncols : Int))
    (h5 : 0 ≤ p.rowEndSpinBox) (h6 : 0 ≤ p.columnEndSpinBox) :
    (run p (some M) ri ci).result
      = (run_vector (some M) (flatten_indices ri) (flatten_indices ci)).result := by
  have hr0 : ¬ (M.nrows = 0 ∨ M.ncols = 0) := by omega
  have hres : resolve_range p M true
      = (p.rowStartSpinBox, p.rowEndSpinBox, p.columnStartSpinBox, p.columnEndSpinBox) := by
    simp [resolve_range]
  have hex : exceeds_dimensions M
      (p.rowStartSpinBox, p.rowEndSpinBox, p.columnStartSpinBox, p.columnEndSpinBox) = false := by
    have a1 : decide (p.rowStartSpinBox < 0) = false := decide_eq_false (by omega)
    have a2 : decide (p.columnStartSpinBox < 0) = false := decide_eq_false (by omega)
    have a3 : decide (to_size_t p.rowEndSpinBox > (M.nrows : Int)) = false :=
      decide_eq_false (by have := to_size_t_le p.rowEndSpinBox h5; omega)
    have a4 : decide (to_size_t p.columnEndSpinBox > (M.ncols : Int)) = false :=
      decide_eq_false (by have := to_size_t_le p.columnEndSpinBox h6; omega)
    simp [exceeds_dimensions, a1, a2, a3, a4]
  simp only [run, hr0, if_false, hidx, hres, hex, if_true, get_sub_matrix, Bool.false_eq_true]

/-! ## The claims -/

/-- C1: explicit-index entry point on a dense input with both lists non-empty and
in range: the call succeeds and returns a dense matrix of shape |R| × |C| with
`output[i][j] = input[R[i]][C[j]]` for all `i`, `j`. -/
theorem C1_dense_explicit_both (A : DenseMatrix) (R C : List Int)
    (hR : R ≠ []) (hC : C ≠ [])
    (hRr : ∀ i ∈ R, 0 ≤ i ∧ i < (A.nrows : Int))
    (hCc : ∀ j ∈ C, 0 ≤ j ∧ j < (A.ncols : Int)) :
    ∃ out : DenseMatrix,
      run_vector (some (.dense A)) R C = ⟨[], .ok (some (.dense out))⟩ ∧
      out.nrows = R.length ∧ out.ncols = C.length ∧
      out.data = R.map (fun r => C.map (fun c => A.coeff r.toNat c.toNat)) ∧
      ∀ (i j : Nat) (hi : i < R.length) (hj : j < C.length),
        out.coeff i j = A.coeff (R[i]).toNat (C[j]).toNat := by
  refine ⟨⟨R.length, C.length, R.map (fun r => C.map (fun c => A.coeff r.toNat c.toNat))⟩,
    run_vector_dense_both A R C hR hC hRr hCc, rfl, rfl, rfl, ?_⟩
  intro i j hi hj
  simp [DenseMatrix.coeff, List.getD_eq_getElem?_getD, hi, hj]

/-- Witness of C1 on scenario A: the 4×4 matrix with `M[i][j] = 4 * i + j`, the
row list `[0, 2]` and the column list `[1, 3]`. -/
theorem C1_dense_explicit_both_witness :
    (([0, 2] : List Int) ≠ [] ∧ ([1, 3] : List Int) ≠ [] ∧
      (∀ i ∈ ([0, 2] : List Int), 0 ≤ i ∧ i < (Example.dense4x4.nrows : Int)) ∧
      (∀ j ∈ ([1, 3] : List Int), 0 ≤ j ∧ j < (Example.dense4x4.ncols : Int))) ∧
    ∃ out : DenseMatrix,
      run_vector (some (.dense Example.dense4x4)) [0, 2] [1, 3]
        = ⟨[], .ok (some (.dense out))⟩ ∧
      out.nrows = ([0, 2] : List Int).length ∧ out.ncols = ([1, 3] : List Int).length ∧
      out.data = ([0, 2] : List Int).map (fun r =>
        ([1, 3] : List Int).map (fun c => Example.dense4x4.coeff r.toNat c.toNat)) ∧
      ∀ (i j : Nat) (hi : i < ([0, 2] : List Int).length) (hj : j < ([1, 3] : List Int).length),
        out.coeff i j
          = Example.dense4x4.coeff (([0, 2] : List Int)[i]).toNat (([1, 3] : List Int)[j]).toNat :=
  ⟨⟨by decide, by decide, by decide, by decide⟩,
    C1_dense_explicit_both Example.dense4x4 [0, 2] [1, 3]
      (by decide) (by decide) (by decide) (by decide)⟩

/-- Scenario A of the specification, evaluated: the output is `[[1, 3], [9, 11]]`. -/
theorem scenario_A :
    run_vector (some (.dense Example.dense4x4)) [0, 2] [1, 3]
      = ⟨[], .ok (some (.dense ⟨2, 2, [[1, 3], [9, 11]]⟩))⟩ := by
  decide

/-- C2: bounds rejection in the explicit-index entry point.  For every non-null
input of any representation, if the row list holds an index `i < 0` or
`i ≥ nrows`, or the column list an index `j < 0` or `j ≥ ncols`, the call throws
an index-out-of-range error and returns no matrix: the row message when a row
index is out of range, the column message when only a column index is. -/
theorem C2_bounds_rejection (M : Matrix) (R C : List Int)
    (h : (∃ i ∈ R, i < 0 ∨ i ≥ (M.nrows : Int)) ∨ (∃ j ∈ C, j < 0 ∨ j ≥ (M.ncols : Int))) :
    ∃ e : AlgorithmInputError,
      run_vector (some M) R C = ⟨[], .error e⟩ ∧ e.isIndexOutOfRange = true ∧
      ((∃ i ∈ R, i < 0 ∨ i ≥ (M.nrows : Int)) → e = .selectedRowExceeds) ∧
      ((∀ i ∈ R, 0 ≤ i ∧ i < (M.nrows : Int)) → e = .selectedColumnExceeds) := by
  have hne : (R.isEmpty && C.isEmpty) = false := by
    rcases h with ⟨x, hx, _⟩ | ⟨x, hx, _⟩
    · rw [isEmpty_eq_false_of_ne_nil (List.ne_nil_of_mem hx)]; rfl
    · rw [isEmpty_eq_false_of_ne_nil (List.ne_nil_of_mem hx)]; simp
  by_cases hrow : ∃ i ∈ R, i < 0 ∨ i ≥ (M.nrows : Int)
  · refine ⟨.selectedRowExceeds, ?_, rfl, fun _ => rfl, ?_⟩
    · simp only [run_vector, hne, validation_fails R M.nrows hrow]
      simp
    · intro hall
      obtain ⟨x, hx, hbad⟩ := hrow
      have := hall x hx
      omega
  · have hcol : ∃ j ∈ C, j < 0 ∨ j ≥ (M.ncols : Int) := by
      rcases h with h | h
      · exact absurd h hrow
      · exact h
    have hall : ∀ i ∈ R, 0 ≤ i ∧ i < (M.nrows : Int) := by
      intro i hi
      by_contra hcon
      exact hrow ⟨i, hi, by omega⟩
    refine ⟨.selectedColumnExceeds, ?_, rfl, fun hr => absurd hr hrow, fun _ => rfl⟩
    simp only [run_vector, hne, validation_passes R M.nrows hall,
      validation_fails C M.ncols hcol]
    simp

/-- Witness of C2: the column list `[1, 3]` on the 3×3 sparse matrix, whose
column 3 does not exist. -/
theorem C2_bounds_rejection_witness :
    ((∃ i ∈ ([0] : List Int), i < 0 ∨ i ≥ ((Matrix.sparse Example.sparse3x3).nrows : Int)) ∨
      (∃ j ∈ ([1, 3] : List Int),
        j < 0 ∨ j ≥ ((Matrix.sparse Example.sparse3x3).ncols : Int))) ∧
    ∃ e : AlgorithmInputError,
      run_vector (some (.sparse Example.sparse3x3)) [0] [1, 3] = ⟨[], .error e⟩ ∧
      e.isIndexOutOfRange = true ∧
      ((∃ i ∈ ([0] : List Int), i < 0 ∨ i ≥ ((Matrix.sparse Example.sparse3x3).nrows : Int)) →
        e = .selectedRowExceeds) ∧
      ((∀ i ∈ ([0] : List Int), 0 ≤ i ∧ i < ((Matrix.sparse Example.sparse3x3).nrows : Int)) →
        e = .selectedColumnExceeds) :=
  ⟨by decide, C2_bounds_rejection (.sparse Example.sparse3x3) [0] [1, 3] (by decide)⟩

/-- C3: explicit-index entry point, rows only, dense input.  For a non-empty
in-range row list `R` and an empty column list the call returns a dense
|R| × ncols matrix whose row `i` is source row `R[i]`, in the order of the list,
a repeated index giving a repeated row. -/
theorem C3_dense_explicit_rows (A : DenseMatrix) (R : List Int) (hR : R ≠ [])
    (hRr : ∀ i ∈ R, 0 ≤ i ∧ i < (A.nrows : Int)) :
    ∃ out : DenseMatrix,
      run_vector (some (.dense A)) R [] = ⟨[], .ok (some (.dense out))⟩ ∧
      out.nrows = R.length ∧ out.ncols = A.ncols ∧
      out.data = R.map (fun r => A.row r.toNat) ∧
      ∀ (i j : Nat) (hi : i < R.length), j < A.ncols →
        out.coeff i j = A.coeff (R[i]).toNat j := by
  refine ⟨⟨R.length, A.ncols, R.map (fun r => A.row r.toNat)⟩, ?_, rfl, rfl, rfl, ?_⟩
  · simp only [run_vector, isEmpty_eq_false_of_ne_nil hR, Bool.false_and, Matrix.nrows,
      Matrix.ncols, validation_passes R A.nrows hRr, dense_selection_rows A _ _ R hR]
    simp
  · intro i j hi hj
    simp [DenseMatrix.coeff, DenseMatrix.row, List.getD_eq_getElem?_getD, hi, hj]

/-- Witness of C3: the row list `[2, 2]` on a dense matrix of 5 rows. -/
theorem C3_dense_explicit_rows_witness :
    (([2, 2] : List Int) ≠ [] ∧
      (∀ i ∈ ([2, 2] : List Int), 0 ≤ i ∧ i < (Example.dense5x2.nrows : Int))) ∧
    ∃ out : DenseMatrix,
      run_vector (some (.dense Example.dense5x2)) [2, 2] [] = ⟨[], .ok (some (.dense out))⟩ ∧
      out.nrows = ([2, 2] : List Int).length ∧ out.ncols = Example.dense5x2.ncols ∧
      out.data = ([2, 2] : List Int).map (fun r => Example.dense5x2.row r.toNat) ∧
      ∀ (i j : Nat) (hi : i < ([2, 2] : List Int).length), j < Example.dense5x2.ncols →
        out.coeff i j = Example.dense5x2.coeff (([2, 2] : List Int)[i]).toNat j :=
  ⟨⟨by decide, by decide⟩,
    C3_dense_explicit_rows Example.dense5x2 [2, 2] (by decide) (by decide)⟩

/-- The duplicate-index scenario of the specification, evaluated: both output
rows are source row 2. -/
theorem scenario_duplicate_rows :
    run_vector (some (.dense Example.dense5x2)) [2, 2] []
      = ⟨[], .ok (some (.dense ⟨2, 2, [[20, 21], [20, 21]]⟩))⟩ := by
  decide

/-- C4: range mode on a dense input with only the row toggle set.  With no index
matrices, `rowCheckBox` set, `columnCheckBox` clear and
`0 ≤ rowStart ≤ rowEnd < nrows`, the call returns a dense matrix of shape
(rowEnd − rowStart + 1) × ncols with `output[i][j] = input[rowStart + i][j]`,
whatever the column bounds are. -/
theorem C4_range_rows_dense (A : DenseMatrix) (p : Parameters)
    (hc : 0 < A.ncols) (hrow : p.rowCheckBox = true) (hcol : p.columnCheckBox = false)
    (h0 : 0 ≤ p.rowStartSpinBox) (h1 : p.rowStartSpinBox ≤ p.rowEndSpinBox)
    (h2 : p.rowEndSpinBox < (A.nrows : Int)) :
    ∃ out : DenseMatrix,
      run p (some (.dense A)) none none = ⟨[], .ok (some (.dense out))⟩ ∧
      (out.nrows : Int) = p.rowEndSpinBox - p.rowStartSpinBox + 1 ∧ out.ncols = A.ncols ∧
      out.WF ∧
      ∀ i j : Nat, i < out.nrows → j < A.ncols →
        out.coeff i j = A.coeff (p.rowStartSpinBox.toNat + i) j := by
  have hres : resolve_range p (.dense A) false
      = (p.rowStartSpinBox, p.rowEndSpinBox - p.rowStartSpinBox + 1, 0, (A.ncols : Int)) := by
    simp [resolve_range, hrow, hcol, Matrix.ncols]
  have hrun := run_range_dense p A _ _ _ _ hres (by omega) hc h0 (by omega) (by omega)
    (le_refl _) (by omega) (by omega)
  refine ⟨_, hrun, ?_, ?_, ?_, ?_⟩
  · simp only; omega
  · simp
  · constructor
    · simp
    · intro r hr
      simp only [List.mem_map, List.mem_range] at hr
      obtain ⟨i, _, rfl⟩ := hr
      simp
  · intro i j hi hj
    simp only at hi
    have := DenseMatrix.coeff_mk_map (p.rowEndSpinBox - p.rowStartSpinBox + 1).toNat
      ((A.ncols : Int).toNat)
      (fun i j => A.coeff (p.rowStartSpinBox.toNat + i) ((0 : Int).toNat + j))
      i j hi (by simpa using hj)
    rw [this]
    simp

/-- Witness of C4 on scenario D: rows 1 to 2 of a 4×3 dense matrix. -/
theorem C4_range_rows_dense_witness :
    (0 < Example.dense4x3.ncols ∧ Example.rows1to2.rowCheckBox = true ∧
      Example.rows1to2.columnCheckBox = false ∧ 0 ≤ Example.rows1to2.rowStartSpinBox ∧
      Example.rows1to2.rowStartSpinBox ≤ Example.rows1to2.rowEndSpinBox ∧
      Example.rows1to2.rowEndSpinBox < (Example.dense4x3.nrows : Int)) ∧
    ∃ out : DenseMatrix,
      run Example.rows1to2 (some (.dense Example.dense4x3)) none none
        = ⟨[], .ok (some (.dense out))⟩ ∧
      (out.nrows : Int)
        = Example.rows1to2.rowEndSpinBox - Example.rows1to2.rowStartSpinBox + 1 ∧
      out.ncols = Example.dense4x3.ncols ∧ out.WF ∧
      ∀ i j : Nat, i < out.nrows → j < Example.dense4x3.ncols →
        out.coeff i j = Example.dense4x3.coeff (Example.rows1to2.rowStartSpinBox.toNat + i) j :=
  ⟨⟨by decide, by decide, by decide, by decide, by decide, by decide⟩,
    C4_range_rows_dense Example.dense4x3 Example.rows1to2
      (by decide) (by decide) (by decide) (by decide) (by decide) (by decide)⟩

/-- Scenario D of the specification, evaluated: rows 1 to 2 and all 3 columns. -/
theorem scenario_D :
    run Example.rows1to2 (some (.dense Example.dense4x3)) none none
      = ⟨[], .ok (some (.dense ⟨2, 3, [[3, 4, 5], [6, 7, 8]]⟩))⟩ := by
  decide

/-- C5: range equivalence for dense inputs.  With both toggles set, no index
matrices, `0 ≤ rowStart ≤ rowEnd < nrows` and `0 ≤ colStart ≤ colEnd < ncols`,
the range-mode call and the explicit-index call on the lists
`[rowStart, …, rowEnd]` and `[colStart, …, colEnd]` give the same outcome: the
same diagnostics and the same matrix, in shape and element for element. -/
theorem C5_range_equivalence (A : DenseMatrix) (p : Parameters)
    (hrow : p.rowCheckBox = true) (hcol : p.columnCheckBox = true)
    (hr0 : 0 ≤ p.rowStartSpinBox) (hr1 : p.rowStartSpinBox ≤ p.rowEndSpinBox)
    (hr2 : p.rowEndSpinBox < (A.nrows : Int))
    (hc0 : 0 ≤ p.columnStartSpinBox) (hc1 : p.columnStartSpinBox ≤ p.columnEndSpinBox)
    (hc2 : p.columnEndSpinBox < (A.ncols : Int)) :
    run p (some (.dense A)) none none
      = run_vector (some (.dense A)) (index_range p.rowStartSpinBox p.rowEndSpinBox)
          (index_range p.columnStartSpinBox p.columnEndSpinBox) := by
  have hres : resolve_range p (.dense A) false
      = (p.rowStartSpinBox, p.rowEndSpinBox - p.rowStartSpinBox + 1,
          p.columnStartSpinBox, p.columnEndSpinBox - p.columnStartSpinBox + 1) := by
    simp [resolve_range, hrow, hcol]
  rw [run_range_dense p A _ _ _ _ hres (by omega) (by omega) hr0 (by omega) (by omega)
    hc0 (by omega) (by omega)]
  rw [run_vector_dense_both A _ _ (index_range_ne_nil _ _ hr1) (index_range_ne_nil _ _ hc1)
    (index_range_bounds _ _ _ hr0 hr2) (index_range_bounds _ _ _ hc0 hc2)]
  have hadd : ∀ (a : Int) (k : Nat), 0 ≤ a → (a + (k : Int)).toNat = a.toNat + k := by
    intro a k ha
    omega
  simp only [index_range, List.length_map, List.length_range, List.map_map, Function.comp_def,
    hadd _ _ hr0, hadd _ _ hc0]

/-- Witness of C5: rows 1 to 2 and columns 1 to 3 of the 4×4 matrix. -/
theorem C5_range_equivalence_witness :
    (Example.rows1to2cols1to3.rowCheckBox = true ∧
      Example.rows1to2cols1to3.columnCheckBox = true ∧
      0 ≤ Example.rows1to2cols1to3.rowStartSpinBox ∧
      Example.rows1to2cols1to3.rowStartSpinBox ≤ Example.rows1to2cols1to3.rowEndSpinBox ∧
      Example.rows1to2cols1to3.rowEndSpinBox < (Example.dense4x4.nrows : Int) ∧
      0 ≤ Example.rows1to2cols1to3.columnStartSpinBox ∧
      Example.rows1to2cols1to3.columnStartSpinBox
        ≤ Example.rows1to2cols1to3.columnEndSpinBox ∧
      Example.rows1to2cols1to3.columnEndSpinBox < (Example.dense4x4.ncols : Int)) ∧
    run Example.rows1to2cols1to3 (some (.dense Example.dense4x4)) none none
      = run_vector (some (.dense Example.dense4x4))
          (index_range Example.rows1to2cols1to3.rowStartSpinBox
            Example.rows1to2cols1to3.rowEndSpinBox)
          (index_range Example.rows1to2cols1to3.columnStartSpinBox
            Example.rows1to2cols1to3.columnEndSpinBox) :=
  ⟨⟨by decide, by decide, by decide, by decide, by decide, by decide, by decide, by decide⟩,
    C5_range_equivalence Example.dense4x4 Example.rows1to2cols1to3
      (by decide) (by decide) (by decide) (by decide) (by decide) (by decide) (by decide)
      (by decide)⟩

/-- The two sides of the range equivalence, evaluated on rows 1 to 2 and columns
1 to 3 of the 4×4 matrix. -/
theorem scenario_range_equivalence :
    run Example.rows1to2cols1to3 (some (.dense Example.dense4x4)) none none
      = ⟨[], .ok (some (.dense ⟨2, 3, [[5, 6, 7], [9, 10, 11]]⟩))⟩ ∧
    run_vector (some (.dense Example.dense4x4)) [1, 2] [1, 2, 3]
      = ⟨[], .ok (some (.dense ⟨2, 3, [[5, 6, 7], [9, 10, 11]]⟩))⟩ := by
  decide

/-- C6 (the source departs from the claim): with an index matrix supplied the
range bounds are still tested at lines 149-150.  On the 4×4 matrix with the row
index matrix `[[0]]`, the toggle set and `rowEnd = 5`, the call announces that
the UI settings are ignored, then reports that they exceed the matrix and
returns the null handle; with the parameters of the constructor the same call
returns row 0, as the explicit-index call on the flattened lists does. -/
theorem C6_range_bounds_override_indices :
    run Example.rows0to5 (some (.dense Example.dense4x4)) (some Example.index0) none
      = ⟨[.ignoringUISettings, .exceedMatrixDimensions], .ok none⟩ ∧
    run Example.defaults (some (.dense Example.dense4x4)) (some Example.index0) none
      = ⟨[], .ok (some (.dense ⟨1, 4, [[0, 1, 2, 3]]⟩))⟩ ∧
    run_vector (some (.dense Example.dense4x4)) (flatten_indices (some Example.index0))
        (flatten_indices none)
      = ⟨[], .ok (some (.dense ⟨1, 4, [[0, 1, 2, 3]]⟩))⟩ := by
  decide

/-- C7 (the source departs from the claim): the test of lines 149-150 compares
the row length with the row count, not the end of the block.  On a 4×3 dense
matrix with the row toggle set, `rowStart = 1` and `rowEnd = 4`, the resolved
values are start 1 and length 4; the test accepts them although
`1 + 4 > 4`, and the block extraction is reached outside the matrix. -/
theorem C7_validator_accepts_block_out_of_bounds :
    resolve_range Example.rows1to4 (.dense Example.dense4x3) false = (1, 4, 0, 3) ∧
    exceeds_dimensions (.dense Example.dense4x3) (1, 4, 0, 3) = false ∧
    ¬ ((1 : Int) + 4 ≤ (Example.dense4x3.nrows : Int)) ∧
    Example.rows1to4.rowEndSpinBox ≥ (Example.dense4x3.nrows : Int) ∧
    run Example.rows1to4 (some (.dense Example.dense4x3)) none none
      = ⟨[], .error .eigenAssert⟩ := by
  decide

/-- C8 (the source departs from the claim): the sparse matrix assembled at line
298 is dropped, and the input itself is returned.  On scenario B (the 3×3 sparse
matrix with `M[0][0] = 5`, `M[2][2] = 7`, row list `[2]`) the assembled matrix
has shape 1×3, but the call returns the 3×3 input with both entries after the
diagnostic of line 387. -/
theorem C8_sparse_rows_returns_input :
    run_vector (some (.sparse Example.sparse3x3)) [2] []
      = ⟨[.couldNotDeal], .ok (some (.sparse Example.sparse3x3))⟩ ∧
    (sparse_output_matrix Example.sparse3x3 [2] []).nrows = 1 ∧
    (sparse_output_matrix Example.sparse3x3 [2] []).ncols = 3 ∧
    (Matrix.sparse Example.sparse3x3).nrows = 3 := by
  decide

/-- C9: passthrough identity.  For a non-empty dense or sparse input, with no
index matrices and both toggles clear, the call returns a matrix equal to the
input (same shape, same elements), whatever the four range bounds are. -/
theorem C9_passthrough_identity (p : Parameters) (M : Matrix)
    (hrow : p.rowCheckBox = false) (hcol : p.columnCheckBox = false)
    (hkind : matrix_is.dense M = true ∨ matrix_is.sparse M = true)
    (hwf : M.WF) (hr : 0 < M.nrows) (hc : 0 < M.ncols) :
    run p (some M) none none = ⟨[], .ok (some M)⟩ := by
  cases M with
  | dense A => exact run_passthrough_dense p A hrow hcol hwf hr hc
  | sparse S => exact run_passthrough_sparse p S hrow hcol hwf hr hc
  | column c => simp [matrix_is.dense, matrix_is.sparse, matrix_cast.as_dense,
      matrix_cast.as_sparse] at hkind
  | other r c => simp [matrix_is.dense, matrix_is.sparse, matrix_cast.as_dense,
      matrix_cast.as_sparse] at hkind

/-- Witness of C9: a 4×3 dense matrix and the 3×3 sparse matrix, with the
parameters of the constructor. -/
theorem C9_passthrough_identity_witness :
    ((Example.defaults.rowCheckBox = false ∧ Example.defaults.columnCheckBox = false ∧
        (matrix_is.dense (.dense Example.dense4x3) = true ∨
          matrix_is.sparse (.dense Example.dense4x3) = true) ∧
        (Matrix.dense Example.dense4x3).WF ∧ 0 < (Matrix.dense Example.dense4x3).nrows ∧
        0 < (Matrix.dense Example.dense4x3).ncols) ∧
      run Example.defaults (some (.dense Example.dense4x3)) none none
        = ⟨[], .ok (some (.dense Example.dense4x3))⟩) ∧
    ((matrix_is.dense (.sparse Example.sparse3x3) = true ∨
          matrix_is.sparse (.sparse Example.sparse3x3) = true) ∧
        (Matrix.sparse Example.sparse3x3).WF) ∧
      run Example.defaults (some (.sparse Example.sparse3x3)) none none
        = ⟨[], .ok (some (.sparse Example.sparse3x3))⟩ :=
  ⟨⟨⟨by decide, by decide, by decide, by decide, by decide, by decide⟩,
      C9_passthrough_identity Example.defaults (.dense Example.dense4x3)
        (by decide) (by decide) (by decide) (by decide) (by decide) (by decide)⟩,
    ⟨by decide, by decide⟩,
    C9_passthrough_identity Example.defaults (.sparse Example.sparse3x3)
      (by decide) (by decide) (by decide) (by decide) (by decide) (by decide)⟩

/-- C10 (the source departs from the claim): the loop of lines 369-379 accepts a
row index only when it is strictly positive.  On the column vector
`[10, 20, 30]` with the row list `[0]`, which passes the validation of lines
239-245, the call throws the out-of-range error of line 377 instead of returning
the 1×1 matrix `[10]`; the row list `[1]` on the same input does return a
matrix. -/
theorem C10_column_row_zero_rejected :
    run_vector (some (.column Example.column3)) [0] []
      = ⟨[], .error .columnIndexOutOfRange⟩ ∧
    run_vector (some (.column Example.column3)) [0] [0]
      = ⟨[], .error .columnIndexOutOfRange⟩ ∧
    run_vector (some (.column Example.column3)) [1] []
      = ⟨[], .ok (some (.dense ⟨1, 1, [[20]]⟩))⟩ := by
  decide

end SelectSubMatrixAlgorithm

/-! ## Lemmas for the column loop, the flattening and the column vector -/

/-- Writing position `n` of a list whose first `n` entries are already written. -/
theorem set_append_replicate {α : Type} (l : List α) (n c : Nat) (z x : α)
    (hl : l.length = n) (hn : n < c) :
    (l ++ List.replicate (c - n) z).set n x = (l ++ [x]) ++ List.replicate (c - (n + 1)) z := by
  have hrep : List.replicate (c - n) z = z :: List.replicate (c - (n + 1)) z := by
    have : c - n = (c - (n + 1)) + 1 := by omega
    rw [this, List.replicate_succ]
  rw [List.set_append_right _ _ (by omega), hl, Nat.sub_self, hrep, List.set_cons_zero]
  simp

/-- The loop of lines 331-334 after `n` rounds: the first `n` columns of every
row are written, the others are as allocated. -/
theorem dense_cols_loop (f : Nat → Nat → Int) (v : Nat → List Int) (r c n : Nat) (hn : n ≤ c)
    (hv : ∀ i j, i < r → (v j).getD i 0 = f i j) :
    (List.range n).foldl (fun out j => out.setCol j (v j)) (DenseMatrix.make r c)
      = ⟨r, c, (List.range r).map (fun i =>
          (List.range n).map (f i) ++ List.replicate (c - n) 0)⟩ := by
  induction n with
  | zero =>
    simp only [List.range_zero, List.foldl_nil, DenseMatrix.make, List.map_nil, List.nil_append,
      Nat.sub_zero, DenseMatrix.mk.injEq, true_and]
    apply List.ext_getElem
    · simp
    · intro i h1 h2
      simp
  | succ n ih =>
    have hlt : n < c := by omega
    rw [List.range_succ, List.foldl_append, ih (by omega)]
    simp only [List.foldl_cons, List.foldl_nil, DenseMatrix.setCol, List.length_map,
      List.length_range, DenseMatrix.mk.injEq, true_and]
    apply List.map_congr_left
    intro i hi
    have hir : i < r := List.mem_range.mp hi
    have hget : ((List.range r).map (fun i =>
        (List.range n).map (f i) ++ List.replicate (c - n) (0 : Int))).getD i []
        = (List.range n).map (f i) ++ List.replicate (c - n) 0 := by
      simp [List.getD_eq_getElem?_getD, hir]
    rw [hget, hv i n hir, set_append_replicate _ n c 0 _ (by simp) hlt]
    simp [List.range_succ]

theorem row_major_succ (f : Nat → Nat → Int) (n nc : Nat) :
    row_major f (n + 1) nc = row_major f n nc ++ (List.range nc).map (f n) := by
  simp [row_major, List.range_succ]

theorem length_row_major (f : Nat → Nat → Int) (n nc : Nat) :
    (row_major f n nc).length = n * nc := by
  induction n with
  | zero => simp [row_major]
  | succ n ih =>
    rw [row_major_succ, List.length_append, ih, List.length_map, List.length_range,
      Nat.succ_mul]

/-- Entry `(i, j)` of the table sits at position `i * nc + j` of its row-major
flattening. -/
theorem getElem?_row_major (f : Nat → Nat → Int) (n nc i j : Nat) (hi : i < n) (hj : j < nc) :
    (row_major f n nc)[i * nc + j]? = some (f i j) := by
  induction n with
  | zero => omega
  | succ n ih =>
    rw [row_major_succ]
    by_cases hin : i < n
    · have hlt : i * nc + j < (row_major f n nc).length := by
        rw [length_row_major]
        have : (i + 1) * nc ≤ n * nc := Nat.mul_le_mul_right nc hin
        rw [Nat.succ_mul] at this
        omega
      rw [List.getElem?_append_left hlt]
      exact ih hin
    · have hieq : i = n := by omega
      subst hieq
      rw [List.getElem?_append_right (by rw [length_row_major]; omega), length_row_major]
      simp [hj]

/-- Writing the values `vs` one after the other from position `count` on, as the
statement `sel[count++] = v` of lines 69 and 85 does. -/
theorem foldl_write (vs pre suf : List Int) (h : vs.length ≤ suf.length) :
    vs.foldl (fun (st : List Int × Nat) v => (st.1.set st.2 v, st.2 + 1))
        (pre ++ suf, pre.length)
      = (pre ++ vs ++ suf.drop vs.length, pre.length + vs.length) := by
  induction vs generalizing pre suf with
  | nil => simp
  | cons v vs ih =>
    cases suf with
    | nil => simp at h
    | cons s suf =>
      simp only [List.length_cons, Nat.add_le_add_iff_right] at h
      have hset : (pre ++ s :: suf).set pre.length v = (pre ++ [v]) ++ suf := by
        rw [List.set_append_right _ _ (le_refl _)]
        simp
      have hlen : pre.length + 1 = (pre ++ [v]).length := by simp
      rw [List.foldl_cons]
      simp only [hset]
      rw [hlen, ih (pre ++ [v]) suf h]
      simp
      omega

namespace SelectSubMatrixAlgorithm

/-- Lines 327-336 in closed form: only the column list given. -/
theorem dense_selection_cols (A : DenseMatrix) (n : Nat) (C : List Int) (hC : C ≠ []) :
    dense_selection A A.nrows n [] C
      = some ⟨A.nrows, C.length,
          (List.range A.nrows).map (fun i => C.map (fun c => A.coeff i c.toNat))⟩ := by
  unfold dense_selection
  rw [isEmpty_eq_false_of_ne_nil hC]
  simp only [List.isEmpty_nil, Bool.not_false, Bool.not_true, Bool.and_false, Bool.false_and,
    Bool.false_eq_true, if_false, Bool.and_self, if_true]
  rw [dense_cols_loop (fun i j => A.coeff i (C.getD j 0).toNat)
    (fun j => A.col (C.getD j 0).toNat) A.nrows C.length C.length (le_refl _)
    (by
      intro i j hi
      simp [DenseMatrix.col, List.getD_eq_getElem?_getD, hi])]
  simp only [Nat.sub_self, List.replicate_zero, List.append_nil]
  have h1 : ∀ i, (List.range C.length).map (fun j => A.coeff i (C.getD j 0).toNat)
      = C.map (fun c => A.coeff i c.toNat) := by
    intro i
    exact range_map_getD C 0 (fun c => A.coeff i c.toNat)
  simp only [h1]

/-- The column validation of lines 247-253 on a matrix of one column: an index
other than 0 is out of range. -/
theorem validation_fails_of_ne_zero (C : List Int) (h : ∃ j ∈ C, j ≠ 0) :
    ∃ j ∈ C, j < 0 ∨ j ≥ ((1 : Nat) : Int) := by
  obtain ⟨j, hj, hne⟩ := h
  exact ⟨j, hj, by omega⟩

/-- The loop nest of lines 66-70 after `n` rounds of the outer loop. -/
theorem flatten_loop (f : Nat → Nat → Int) (nr nc n : Nat) (hn : n ≤ nr) :
    (List.range n).foldl (fun state i =>
        (List.range nc).foldl (fun (state : List Int × Nat) j =>
          (state.1.set state.2 (f i j), state.2 + 1)) state)
        (List.replicate (nr * nc) 0, 0)
      = (row_major f n nc ++ List.replicate (nr * nc - n * nc) 0, n * nc) := by
  induction n with
  | zero => simp [row_major]
  | succ n ih =>
    have hlt : n < nr := by omega
    have hmul : (n + 1) * nc ≤ nr * nc := Nat.mul_le_mul_right nc hlt
    rw [Nat.succ_mul] at hmul
    rw [List.range_succ, List.foldl_append, ih (by omega)]
    simp only [List.foldl_cons, List.foldl_nil]
    have hinner := foldl_write ((List.range nc).map (f n)) (row_major f n nc)
      (List.replicate (nr * nc - n * nc) 0) (by simp; omega)
    rw [List.foldl_map, length_row_major] at hinner
    rw [hinner, row_major_succ]
    simp only [List.length_map, List.length_range, List.drop_replicate, Nat.succ_mul,
      Prod.mk.injEq, and_true]
    congr 2
    omega

/-- Lines 57-72 in closed form: an index matrix with rows and columns is copied
row after row. -/
theorem flatten_indices_eq (m : DenseMatrix) (hr : 0 < m.nrows) (hc : 0 < m.ncols) :
    flatten_indices (some m) = row_major m.coeff m.nrows m.ncols := by
  have hr0 : ¬ (m.nrows = 0) := by omega
  have hc0 : ¬ (m.ncols = 0) := by omega
  have h := flatten_loop m.coeff m.nrows m.ncols m.nrows (le_refl _)
  simp only [flatten_indices, hr, hc, decide_True, Bool.and_self, if_true, hr0, hc0, if_false]
  rw [h]
  simp

/-- The copy loop of lines 204-214 after `n` rounds: the guard of line 206 holds
in every round, and the first `n` rows of the output are written. -/
theorem column_range_loop (g : Nat → Int) (k n : Nat) (hn : n ≤ k) :
    (List.range n).foldlM (fun (output : DenseMatrix) i =>
        if i < output.nrows then Except.ok (output.set i 0 (g i))
        else Except.error AlgorithmInputError.columnIndexOutOfRange) (DenseMatrix.make k 1)
      = Except.ok ⟨k, 1, (List.range n).map (fun i => [g i]) ++ List.replicate (k - n) [0]⟩ := by
  induction n with
  | zero => simp [DenseMatrix.make, pure, Except.pure]
  | succ n ih =>
    have hlt : n < k := by omega
    have hrep : List.replicate (k - n) [(0 : Int)]
        = [0] :: List.replicate (k - (n + 1)) [0] := by
      have : k - n = (k - (n + 1)) + 1 := by omega
      rw [this, List.replicate_succ]
    rw [List.range_succ, List.foldlM_append, ih (by omega)]
    simp only [bind, Except.bind, List.foldlM_cons, List.foldlM_nil, hlt, if_true, pure,
      Except.pure, DenseMatrix.set]
    rw [List.getD_append_right _ _ _ _ (by simp), List.set_append_right _ _ (by simp)]
    simp [hrep]

/-- Range mode on a column vector, lines 91-216, in closed form: when the four
resolved values pass the tests of lines 149-150 and 186-193 (starts not
negative, `row_end` and `col_end` not negative and below their limits) and the
size of line 202 is not negative, the output has `row_end - row_start + 1` rows,
copied from `row_start` on; `row_end` is the resolved value, a length when the
row toggle is set. -/
theorem run_range_column (p : Parameters) (c : DenseColumnMatrix) (rs rl cs cl : Int)
    (hres : resolve_range p (.column c) false = (rs, rl, cs, cl))
    (hn : 0 < c.nrows) (h1 : 0 ≤ rs) (h2 : rl < (c.nrows : Int)) (h3 : 0 ≤ cs)
    (h4 : cl ≤ 1) (h5 : cl < (c.nrows : Int)) (h6 : 0 ≤ rl - rs + 1)
    (h7 : 0 ≤ rl) (h8 : 0 ≤ cl) :
    run p (some (.column c)) none none
      = ⟨[], .ok (some (.dense ⟨(rl - rs + 1).toNat, 1,
          (List.range (rl - rs + 1).toNat).map (fun (i : Nat) =>
            [c.coeff (rs + (i : Int)).toNat])⟩))⟩ := by
  have hex : exceeds_dimensions (.column c) (rs, rl, cs, cl) = false := by
    have a1 : decide (rs < 0) = false := decide_eq_false (by omega)
    have a2 : decide (cs < 0) = false := decide_eq_false (by omega)
    have a3 : decide (to_size_t rl > (c.nrows : Int)) = false :=
      decide_eq_false (by have := to_size_t_le rl h7; omega)
    have a4 : decide (to_size_t cl > (1 : Int)) = false :=
      decide_eq_false (by have := to_size_t_le cl h8; omega)
    simp only [exceeds_dimensions, Matrix.nrows, Matrix.ncols, DenseColumnMatrix.ncols,
      Nat.cast_one, a1, a2, a3, a4, Bool.or_self]
  have hcol : column_range (.column c) c rs rl cs cl
      = .ok ⟨(rl - rs + 1).toNat, 1,
          (List.range (rl - rs + 1).toNat).map (fun (i : Nat) =>
            [c.coeff (rs + (i : Int)).toNat])⟩ := by
    have hn0 : ¬ (c.nrows = 0) := by omega
    have b1 : ¬ (rs < 0 ∨ to_size_t rl ≥ (c.nrows : Int)) := by
      have := to_size_t_le rl h7
      omega
    have b2 : ¬ (cs < 0 ∨ to_size_t cl ≥ (c.nrows : Int)) := by
      have := to_size_t_le cl h8
      omega
    have b3 : ¬ (c.nrows ≤ 0) := by omega
    have hmk : DenseMatrix.makeChecked (rl - rs + 1) 1
        = .ok (DenseMatrix.make (rl - rs + 1).toNat 1) := by
      unfold DenseMatrix.makeChecked
      rw [if_pos ⟨h6, by omega⟩]
      rfl
    have hloop := column_range_loop (fun (i : Nat) => c.coeff (rs + (i : Int)).toNat)
      (rl - rs + 1).toNat (rl - rs + 1).toNat (le_refl _)
    simp only [Nat.sub_self, List.replicate_zero, List.append_nil] at hloop
    simp only [column_range, Matrix.nrows, Matrix.ncols, DenseColumnMatrix.ncols, ne_eq,
      not_true_eq_false, or_false, if_false, hn0, b1, b2, b3, hmk, bind, Except.bind]
    exact hloop
  have hr0 : ¬ (c.nrows = 0 ∨ c.ncols = 0) := by
    simp [DenseColumnMatrix.ncols]; omega
  simp only [run, Matrix.nrows, Matrix.ncols, hr0, if_false, Option.isSome_none, Bool.or_self,
    Bool.false_and, hres, hex, hcol, Bool.false_eq_true]

/-! ## The claims, continued -/

/-- C11 (amended): on a column vector, a column list that holds a value other
than 0 is stopped by the validation of lines 247-253, which runs before the
dispatch on the representation.  With every row index in range the call throws
"Selected column exceeds matrix dimensions", an index-out-of-range error, and
never the message of line 354. -/
theorem C11_column_bad_index_is_out_of_range (c : DenseColumnMatrix) (R C : List Int)
    (hR : ∀ i ∈ R, 0 ≤ i ∧ i < (c.nrows : Int)) (hC : ∃ j ∈ C, j ≠ 0) :
    run_vector (some (.column c)) R C = ⟨[], .error .selectedColumnExceeds⟩ ∧
    AlgorithmInputError.selectedColumnExceeds.isIndexOutOfRange = true ∧
    (run_vector (some (.column c)) R C).result ≠ .error .badColumnIndices := by
  have hne : (R.isEmpty && C.isEmpty) = false := by
    obtain ⟨j, hj, _⟩ := hC
    rw [isEmpty_eq_false_of_ne_nil (List.ne_nil_of_mem hj)]; simp
  have hrun : run_vector (some (.column c)) R C = ⟨[], .error .selectedColumnExceeds⟩ := by
    simp only [run_vector, hne, Matrix.nrows, Matrix.ncols, DenseColumnMatrix.ncols,
      validation_passes R c.nrows hR, validation_fails C 1 (validation_fails_of_ne_zero C hC)]
    simp
  refine ⟨hrun, rfl, ?_⟩
  rw [hrun]
  simp

/-- Witness of C11 (amended): the column vector `[10, 20, 30, 40, 50]`, the row
list `[1, 3]` and the column list `[0, 1]`. -/
theorem C11_column_bad_index_is_out_of_range_witness :
    ((∀ i ∈ ([1, 3] : List Int), 0 ≤ i ∧ i < (Example.column5.nrows : Int)) ∧
      (∃ j ∈ ([0, 1] : List Int), j ≠ 0)) ∧
    run_vector (some (.column Example.column5)) [1, 3] [0, 1]
      = ⟨[], .error .selectedColumnExceeds⟩ ∧
    AlgorithmInputError.selectedColumnExceeds.isIndexOutOfRange = true ∧
    (run_vector (some (.column Example.column5)) [1, 3] [0, 1]).result
      ≠ .error .badColumnIndices :=
  ⟨⟨by decide, by decide⟩,
    C11_column_bad_index_is_out_of_range Example.column5 [1, 3] [0, 1] (by decide) (by decide)⟩

/-- C11 as stated fails: on the column vector `[10, 20, 30, 40, 50]` with the
valid row list `[1]` and the column list `[1]`, the error is the generic
"Selected column exceeds matrix dimensions", not the bad-column-index error. -/
theorem C11_counterexample :
    (run_vector (some (.column Example.column5)) [1] [1]).result
      = .error .selectedColumnExceeds ∧
    (run_vector (some (.column Example.column5)) [1] [1]).result
      ≠ .error .badColumnIndices := by
  decide

/-- C12 (the source departs from the claim): the sparse path returns the input,
not the selection.  On the 3×3 sparse matrix with entries `(0,0)` and `(2,2)`
and the row list `[2]`, the returned matrix stores 2 entries although the
selected row stores 1, and the entry at the unselected coordinate `(0,0)` is
part of it; with the lists `[2]` and `[2]` the returned matrix has 3 rows and 3
columns, not 1 and 1. -/
theorem C12_sparse_selection_keeps_all_entries :
    run_vector (some (.sparse Example.sparse3x3)) [2] []
      = ⟨[.couldNotDeal], .ok (some (.sparse Example.sparse3x3))⟩ ∧
    Example.sparse3x3.entries.length = 2 ∧
    (Example.sparse3x3.row 2).length = 1 ∧
    (0, 0, 5) ∈ Example.sparse3x3.entries ∧
    run_vector (some (.sparse Example.sparse3x3)) [2] [2]
      = ⟨[.couldNotDeal], .ok (some (.sparse Example.sparse3x3))⟩ ∧
    Example.sparse3x3.nrows = 3 ∧ Example.sparse3x3.ncols = 3 ∧
    ([2] : List Int).length = 1 := by
  decide

/-- C13 (the source departs from the claim): in the column branch the row length
is adjusted a second time at lines 202 and 204.  On the column vector
`[10, 20, 30, 40, 50]` with the row range 2 to 3 the output is the 1×1 matrix
`[30]`, not the 2×1 matrix `[30, 40]`; with the row range 3 to 3 the size
requested at line 202 is negative. -/
theorem C13_column_range_adjusts_twice :
    (0 < Example.rows2to3.rowStartSpinBox ∧
      Example.rows2to3.rowStartSpinBox ≤ Example.rows2to3.rowEndSpinBox ∧
      Example.rows2to3.rowEndSpinBox < (Example.column5.nrows : Int)) ∧
    run Example.rows2to3 (some (.column Example.column5)) none none
      = ⟨[], .ok (some (.dense ⟨1, 1, [[30]]⟩))⟩ ∧
    run Example.rows3to3 (some (.column Example.column5)) none none
      = ⟨[], .error .eigenAssert⟩ := by
  decide

/-- C14: an input that is neither sparse, dense nor a column vector.  The
explicit-index entry point with a valid non-empty selection throws "Unknown
input matrix type"; the entry point on range parameters, with no index matrices
and the test of lines 149-150 passing, emits its two diagnostics and returns the
input unchanged. -/
theorem C14_unknown_representation (r c : Nat) (R C : List Int) (p : Parameters)
    (hr : 0 < r) (hc : 0 < c) (hsel : R ≠ [] ∨ C ≠ [])
    (hR : ∀ i ∈ R, 0 ≤ i ∧ i < (r : Int)) (hC : ∀ j ∈ C, 0 ≤ j ∧ j < (c : Int))
    (hval : exceeds_dimensions (.other r c) (resolve_range p (.other r c) false) = false) :
    run_vector (some (.other r c)) R C = ⟨[], .error .unknownMatrixType⟩ ∧
    run p (some (.other r c)) none none
      = ⟨[.needsIndices, .copyingInput], .ok (some (.other r c))⟩ := by
  have hne : (R.isEmpty && C.isEmpty) = false := by
    rcases hsel with h | h
    · rw [isEmpty_eq_false_of_ne_nil h]; rfl
    · rw [isEmpty_eq_false_of_ne_nil h]; simp
  have hr0 : ¬ (r = 0 ∨ c = 0) := by omega
  constructor
  · simp only [run_vector, hne, Matrix.nrows, Matrix.ncols, validation_passes R r hR,
      validation_passes C c hC]
    simp
  · simp only [run, Matrix.nrows, Matrix.ncols, hr0, if_false, Option.isSome_none, Bool.or_self,
      Bool.false_and, hval, Bool.false_eq_true, List.nil_append]

/-- Witness of C14: a 3×3 matrix of another representation, the lists `[1]` and
`[2]`, and range mode on rows 1 to 2. -/
theorem C14_unknown_representation_witness :
    (0 < 3 ∧ 0 < 3 ∧ (([1] : List Int) ≠ [] ∨ ([2] : List Int) ≠ []) ∧
      (∀ i ∈ ([1] : List Int), 0 ≤ i ∧ i < ((3 : Nat) : Int)) ∧
      (∀ j ∈ ([2] : List Int), 0 ≤ j ∧ j < ((3 : Nat) : Int)) ∧
      exceeds_dimensions (.other 3 3) (resolve_range Example.rows1to2 (.other 3 3) false)
        = false) ∧
    run_vector (some (.other 3 3)) [1] [2] = ⟨[], .error .unknownMatrixType⟩ ∧
    run Example.rows1to2 (some (.other 3 3)) none none
      = ⟨[.needsIndices, .copyingInput], .ok (some (.other 3 3))⟩ :=
  ⟨⟨by decide, by decide, by decide, by decide, by decide, by decide⟩,
    C14_unknown_representation 3 3 [1] [2] Example.rows1to2
      (by decide) (by decide) (by decide) (by decide) (by decide) (by decide)⟩

/-- C15: the explicit-index entry point with both lists empty throws "No row and
column indices given" on every non-null input, whatever its representation, and
returns no matrix. -/
theorem C15_empty_selection (M : Matrix) :
    run_vector (some M) [] [] = ⟨[], .error .noIndices⟩ := by
  simp [run_vector]

/-- C16: the entry point on index matrices, called with a null input handle or
with an input of 0 rows or 0 columns, throws nothing and returns the null
handle (after the diagnostic of line 96), whatever the index matrices and the
range parameters are. -/
theorem C16_null_or_empty_input (p : Parameters) (input : MatrixHandle)
    (ri ci : DenseMatrixHandle)
    (h : input = none ∨ ∃ M, input = some M ∧ (M.nrows = 0 ∨ M.ncols = 0)) :
    run p input ri ci = ⟨[.noValidInputs], .ok none⟩ := by
  rcases h with h | ⟨M, hM, hz⟩
  · subst h
    rfl
  · subst hM
    simp only [run, hz, if_true]

/-- Witness of C16: a dense matrix with no rows, with an index matrix and range
parameters set; and the null handle. -/
theorem C16_null_or_empty_input_witness :
    ((some (Matrix.dense Example.dense0x3) = none ∨
        ∃ M, some (Matrix.dense Example.dense0x3) = some M ∧ (M.nrows = 0 ∨ M.ncols = 0)) ∧
      run Example.rows0to5 (some (.dense Example.dense0x3)) (some Example.index0) none
        = ⟨[.noValidInputs], .ok none⟩) ∧
    run Example.rows1to2 none none (some Example.index0) = ⟨[.noValidInputs], .ok none⟩ :=
  ⟨⟨Or.inr ⟨_, rfl, Or.inl rfl⟩,
      C16_null_or_empty_input Example.rows0to5 (some (.dense Example.dense0x3))
        (some Example.index0) none (Or.inr ⟨_, rfl, Or.inl rfl⟩)⟩,
    C16_null_or_empty_input Example.rows1to2 none none (some Example.index0) (Or.inl rfl)⟩

/-- C17 (amended): the column-vector branch of range mode has an inclusive lower
bound.  With no index matrices and the row toggle set, a negative `rowStart` is
rejected by the test of lines 149-150 (null handle, no error), while a row range
that starts at index 0, with `0 ≤ rowEnd < nrows - 1` and a column range that,
when enabled, starts at a non-negative index and has the length 0 or 1
(`colStart - 1 ≤ colEnd ≤ colStart`), is accepted: the call returns a dense
one-column matrix with `output[i][0] = input[i]` for every `0 ≤ i ≤ rowEnd`. -/
theorem C17_column_range_lower_bound_inclusive (c : DenseColumnMatrix) (p : Parameters)
    (hn : 0 < c.nrows) (hrow : p.rowCheckBox = true) :
    (p.rowStartSpinBox < 0 →
      run p (some (.column c)) none none = ⟨[.exceedMatrixDimensions], .ok none⟩) ∧
    (p.rowStartSpinBox = 0 → 0 ≤ p.rowEndSpinBox → p.rowEndSpinBox + 1 < (c.nrows : Int) →
      (p.columnCheckBox = true →
        0 ≤ p.columnStartSpinBox ∧ p.columnStartSpinBox - 1 ≤ p.columnEndSpinBox ∧
        p.columnEndSpinBox ≤ p.columnStartSpinBox) →
      ∃ out : DenseMatrix,
        run p (some (.column c)) none none = ⟨[], .ok (some (.dense out))⟩ ∧
        out.ncols = 1 ∧
        ∀ i : Nat, (i : Int) ≤ p.rowEndSpinBox → out.coeff i 0 = c.coeff i) := by
  constructor
  · intro hneg
    have hr0 : ¬ (c.nrows = 0 ∨ c.ncols = 0) := by
      simp [DenseColumnMatrix.ncols]; omega
    have hex : exceeds_dimensions (.column c) (resolve_range p (.column c) false) = true := by
      have a1 : decide (p.rowStartSpinBox < 0) = true := decide_eq_true hneg
      cases hc : p.columnCheckBox <;>
        simp [exceeds_dimensions, resolve_range, hrow, hc, a1]
    simp only [run, Matrix.nrows, Matrix.ncols, hr0, if_false, Option.isSome_none,
      Bool.or_self, Bool.false_and, hex, if_true, Bool.false_eq_true, List.nil_append]
  · intro hs h0 h1 hcol
    have hres : ∃ cs cl : Int, resolve_range p (.column c) false
        = (0, p.rowEndSpinBox + 1, cs, cl) ∧ 0 ≤ cs ∧ cl ≤ 1 ∧ 0 ≤ cl := by
      cases hc : p.columnCheckBox with
      | false =>
        exact ⟨0, 1, by simp [resolve_range, hrow, hc, hs, Matrix.ncols,
          DenseColumnMatrix.ncols], le_refl _, le_refl _, by norm_num⟩
      | true =>
        obtain ⟨hc0, hc1, hc2⟩ := hcol hc
        exact ⟨p.columnStartSpinBox, p.columnEndSpinBox - p.columnStartSpinBox + 1,
          by simp [resolve_range, hrow, hc, hs], hc0, by omega, by omega⟩
    obtain ⟨cs, cl, hres, hcs, hcl, hcl0⟩ := hres
    have hrun := run_range_column p c 0 (p.rowEndSpinBox + 1) cs cl hres hn (le_refl _)
      h1 hcs hcl (by omega) (by omega) (by omega) hcl0
    refine ⟨_, hrun, rfl, ?_⟩
    intro i hi
    have hlt : i < (p.rowEndSpinBox + 1 + 1).toNat := by omega
    simp [DenseMatrix.coeff, List.getD_eq_getElem?_getD, hlt]

/-- Witness of C17 (amended): the column vector `[10, 20, 30, 40, 50]` with the
row range 0 to 2 (column toggle clear, and column toggle set with the column
range 0 to 0), and with a row range that starts at -1. -/
theorem C17_column_range_lower_bound_inclusive_witness :
    ((0 < Example.column5.nrows ∧ Example.rows0to2col0.rowCheckBox = true ∧
        Example.rows0to2col0.rowStartSpinBox = 0 ∧ 0 ≤ Example.rows0to2col0.rowEndSpinBox ∧
        Example.rows0to2col0.rowEndSpinBox + 1 < (Example.column5.nrows : Int) ∧
        (Example.rows0to2col0.columnCheckBox = true →
          0 ≤ Example.rows0to2col0.columnStartSpinBox ∧
          Example.rows0to2col0.columnStartSpinBox - 1
            ≤ Example.rows0to2col0.columnEndSpinBox ∧
          Example.rows0to2col0.columnEndSpinBox
            ≤ Example.rows0to2col0.columnStartSpinBox)) ∧
      ∃ out : DenseMatrix,
        run Example.rows0to2col0 (some (.column Example.column5)) none none
          = ⟨[], .ok (some (.dense out))⟩ ∧
        out.ncols = 1 ∧
        ∀ i : Nat, (i : Int) ≤ Example.rows0to2col0.rowEndSpinBox →
          out.coeff i 0 = Example.column5.coeff i) ∧
    ((0 < Example.column5.nrows ∧ Example.rows0to2.rowCheckBox = true ∧
        Example.rows0to2.rowStartSpinBox = 0 ∧ 0 ≤ Example.rows0to2.rowEndSpinBox ∧
        Example.rows0to2.rowEndSpinBox + 1 < (Example.column5.nrows : Int) ∧
        (Example.rows0to2.columnCheckBox = true →
          0 ≤ Example.rows0to2.columnStartSpinBox ∧
          Example.rows0to2.columnStartSpinBox - 1 ≤ Example.rows0to2.columnEndSpinBox ∧
          Example.rows0to2.columnEndSpinBox ≤ Example.rows0to2.columnStartSpinBox)) ∧
      ∃ out : DenseMatrix,
        run Example.rows0to2 (some (.column Example.column5)) none none
          = ⟨[], .ok (some (.dense out))⟩ ∧
        out.ncols = 1 ∧
        ∀ i : Nat, (i : Int) ≤ Example.rows0to2.rowEndSpinBox →
          out.coeff i 0 = Example.column5.coeff i) ∧
    (Example.rowsFromMinus1.rowCheckBox = true ∧ Example.rowsFromMinus1.rowStartSpinBox < 0) ∧
    run Example.rowsFromMinus1 (some (.column Example.column5)) none none
      = ⟨[.exceedMatrixDimensions], .ok none⟩ :=
  ⟨⟨⟨by decide, by decide, by decide, by decide, by decide, by decide⟩,
      (C17_column_range_lower_bound_inclusive Example.column5 Example.rows0to2col0
        (by decide) (by decide)).2 (by decide) (by decide) (by decide) (by decide)⟩,
    ⟨⟨by decide, by decide, by decide, by decide, by decide, by decide⟩,
      (C17_column_range_lower_bound_inclusive Example.column5 Example.rows0to2
        (by decide) (by decide)).2 (by decide) (by decide) (by decide) (by decide)⟩,
    ⟨by decide, by decide⟩,
    (C17_column_range_lower_bound_inclusive Example.column5 Example.rowsFromMinus1
      (by decide) (by decide)).1 (by decide)⟩

/-- C17 as stated fails: on the column vector `[10, 20, 30, 40, 50]` in range
mode with the row toggle set and the row range 0 to 2, the call is not rejected;
it returns a matrix that starts with row 0. -/
theorem C17_counterexample :
    Example.rows0to2.rowCheckBox = true ∧ Example.rows0to2.rowStartSpinBox = 0 ∧
    run Example.rows0to2 (some (.column Example.column5)) none none
      = ⟨[], .ok (some (.dense ⟨4, 1, [[10], [20], [30], [40]]⟩))⟩ := by
  decide

/-- The unsigned comparisons of lines 149-150, evaluated: a resolved length below
0 is rejected with the null handle, on a column vector (column range 2 to 0,
length -1) and on a dense matrix (row range 3 to 0, length -2). -/
theorem scenario_negative_length :
    run Example.rows0to2cols2to0 (some (.column Example.column5)) none none
      = ⟨[.exceedMatrixDimensions], .ok none⟩ ∧
    run Example.rows3to0 (some (.dense Example.dense4x3)) none none
      = ⟨[.exceedMatrixDimensions], .ok none⟩ ∧
    exceeds_dimensions (.dense Example.dense4x3) (3, -2, 0, 3) = true := by
  decide

/-- C18: explicit-index entry point, columns only, dense input.  For a non-empty
in-range column list `C` and an empty row list the call returns a dense
nrows × |C| matrix whose column `j` is source column `C[j]`, in the order of the
list, a repeated index giving a repeated column. -/
theorem C18_dense_explicit_cols (A : DenseMatrix) (C : List Int) (hC : C ≠ [])
    (hCc : ∀ j ∈ C, 0 ≤ j ∧ j < (A.ncols : Int)) :
    ∃ out : DenseMatrix,
      run_vector (some (.dense A)) [] C = ⟨[], .ok (some (.dense out))⟩ ∧
      out.nrows = A.nrows ∧ out.ncols = C.length ∧
      out.data = (List.range A.nrows).map (fun i => C.map (fun c => A.coeff i c.toNat)) ∧
      (∀ (i j : Nat) (hj : j < C.length), i < A.nrows →
        out.coeff i j = A.coeff i (C[j]).toNat) ∧
      ∀ (j : Nat) (hj : j < C.length), out.col j = A.col (C[j]).toNat := by
  have hcoeff : ∀ (i j : Nat) (hj : j < C.length), i < A.nrows →
      (DenseMatrix.mk A.nrows C.length
        ((List.range A.nrows).map (fun i => C.map (fun c => A.coeff i c.toNat)))).coeff i j
        = A.coeff i (C[j]).toNat := by
    intro i j hj hi
    simp [DenseMatrix.coeff, List.getD_eq_getElem?_getD, hi, hj]
  refine ⟨⟨A.nrows, C.length,
    (List.range A.nrows).map (fun i => C.map (fun c => A.coeff i c.toNat))⟩,
    ?_, rfl, rfl, rfl, hcoeff, ?_⟩
  · simp only [run_vector, List.isEmpty_nil, isEmpty_eq_false_of_ne_nil hC, Bool.and_false,
      Matrix.nrows, Matrix.ncols, List.any_nil, validation_passes C A.ncols hCc,
      dense_selection_cols A _ C hC]
    simp
  · intro j hj
    unfold DenseMatrix.col
    apply List.map_congr_left
    intro i hi
    exact hcoeff i j hj (List.mem_range.mp hi)

/-- Witness of C18: the column list `[2, 0, 2]` on a 4×3 dense matrix. -/
theorem C18_dense_explicit_cols_witness :
    (([2, 0, 2] : List Int) ≠ [] ∧
      (∀ j ∈ ([2, 0, 2] : List Int), 0 ≤ j ∧ j < (Example.dense4x3.ncols : Int))) ∧
    ∃ out : DenseMatrix,
      run_vector (some (.dense Example.dense4x3)) [] [2, 0, 2]
        = ⟨[], .ok (some (.dense out))⟩ ∧
      out.nrows = Example.dense4x3.nrows ∧ out.ncols = ([2, 0, 2] : List Int).length ∧
      out.data = (List.range Example.dense4x3.nrows).map (fun i =>
        ([2, 0, 2] : List Int).map (fun c => Example.dense4x3.coeff i c.toNat)) ∧
      (∀ (i j : Nat) (hj : j < ([2, 0, 2] : List Int).length), i < Example.dense4x3.nrows →
        out.coeff i j = Example.dense4x3.coeff i (([2, 0, 2] : List Int)[j]).toNat) ∧
      ∀ (j : Nat) (hj : j < ([2, 0, 2] : List Int).length),
        out.col j = Example.dense4x3.col (([2, 0, 2] : List Int)[j]).toNat :=
  ⟨⟨by decide, by decide⟩,
    C18_dense_explicit_cols Example.dense4x3 [2, 0, 2] (by decide) (by decide)⟩

/-- The columns `[2, 0, 2]` of the 4×3 matrix, evaluated. -/
theorem scenario_columns :
    run_vector (some (.dense Example.dense4x3)) [] [2, 0, 2]
      = ⟨[], .ok (some (.dense ⟨4, 3, [[2, 0, 2], [5, 3, 5], [8, 6, 8], [11, 9, 11]]⟩))⟩ := by
  decide

/-- C19: index matrices are flattened row-major.  For an index matrix `m` with
rows and columns, on either axis, `get_sub_matrix` calls the explicit-index
entry point with a list of length `nrows * ncols` whose element at position
`i * ncols + j` is the entry `(i, j)` of `m`; a null index matrix, and one with
0 rows or 0 columns, gives the empty list. -/
theorem C19_row_major_flattening (input : MatrixHandle) (m : DenseMatrix)
    (other : DenseMatrixHandle) (hr : 0 < m.nrows) (hc : 0 < m.ncols) :
    get_sub_matrix input (some m) other
      = run_vector input (flatten_indices (some m)) (flatten_indices other) ∧
    get_sub_matrix input other (some m)
      = run_vector input (flatten_indices other) (flatten_indices (some m)) ∧
    (flatten_indices (some m)).length = m.nrows * m.ncols ∧
    (∀ i j : Nat, i < m.nrows → j < m.ncols →
      (flatten_indices (some m))[i * m.ncols + j]? = some (m.coeff i j)) ∧
    flatten_indices none = [] ∧
    ∀ (k : Nat) (data : List (List Int)),
      flatten_indices (some ⟨0, k, data⟩) = [] ∧ flatten_indices (some ⟨k, 0, data⟩) = [] := by
  refine ⟨rfl, rfl, ?_, ?_, rfl, ?_⟩
  · rw [flatten_indices_eq m hr hc]
    exact length_row_major _ _ _
  · intro i j hi hj
    rw [flatten_indices_eq m hr hc]
    exact getElem?_row_major _ _ _ i j hi hj
  · intro k data
    constructor
    · simp [flatten_indices]
    · simp [flatten_indices]

/-- Witness of C19: the 2×3 index matrix `[[3, 1, 2], [0, 2, 1]]` as row
indices of the 4×4 matrix. -/
theorem C19_row_major_flattening_witness :
    (0 < Example.index2x3.nrows ∧ 0 < Example.index2x3.ncols) ∧
    get_sub_matrix (some (.dense Example.dense4x4)) (some Example.index2x3) none
      = run_vector (some (.dense Example.dense4x4))
          (flatten_indices (some Example.index2x3)) (flatten_indices none) ∧
    get_sub_matrix (some (.dense Example.dense4x4)) none (some Example.index2x3)
      = run_vector (some (.dense Example.dense4x4))
          (flatten_indices none) (flatten_indices (some Example.index2x3)) ∧
    (flatten_indices (some Example.index2x3)).length
      = Example.index2x3.nrows * Example.index2x3.ncols ∧
    (∀ i j : Nat, i < Example.index2x3.nrows → j < Example.index2x3.ncols →
      (flatten_indices (some Example.index2x3))[i * Example.index2x3.ncols + j]?
        = some (Example.index2x3.coeff i j)) ∧
    flatten_indices none = [] ∧
    ∀ (k : Nat) (data : List (List Int)),
      flatten_indices (some ⟨0, k, data⟩) = [] ∧ flatten_indices (some ⟨k, 0, data⟩) = [] :=
  ⟨⟨by decide, by decide⟩,
    C19_row_major_flattening (some (.dense Example.dense4x4)) Example.index2x3 none
      (by decide) (by decide)⟩

/-- The flattening of the 2×3 index matrix, evaluated. -/
theorem scenario_flattening :
    flatten_indices (some Example.index2x3) = [3, 1, 2, 0, 2, 1] := by
  decide

/-- C20: the row list is mandatory for a column vector.  On a column vector with
at least one row, the explicit-index call with an empty row list and a non-empty
column list that holds only 0 throws "Rows input matrix does not contain any
rows!" and returns no matrix. -/
theorem C20_column_rows_mandatory (c : DenseColumnMatrix) (C : List Int)
    (hn : 0 < c.nrows) (hC : C ≠ []) (h0 : ∀ j ∈ C, j = 0) :
    run_vector (some (.column c)) [] C = ⟨[], .error .noRows⟩ := by
  have hcols : ∀ j ∈ C, 0 ≤ j ∧ j < ((1 : Nat) : Int) := by
    intro j hj
    have := h0 j hj
    omega
  have hany : C.any (fun col => decide (col ≠ 0)) = false := by
    rw [List.any_eq_false]
    intro j hj
    simp [h0 j hj]
  have hn0 : ¬ (c.nrows = 0) := by omega
  simp only [run_vector, List.isEmpty_nil, isEmpty_eq_false_of_ne_nil hC, Bool.and_false,
    Matrix.nrows, Matrix.ncols, DenseColumnMatrix.ncols, List.any_nil,
    validation_passes C 1 hcols, column_selection, hany, hn0]
  simp

/-- Witness of C20: the column vector `[10, 20, 30, 40, 50]` with the column
list `[0, 0]`. -/
theorem C20_column_rows_mandatory_witness :
    (0 < Example.column5.nrows ∧ ([0, 0] : List Int) ≠ [] ∧
      (∀ j ∈ ([0, 0] : List Int), j = 0)) ∧
    run_vector (some (.column Example.column5)) [] [0, 0] = ⟨[], .error .noRows⟩ :=
  ⟨⟨by decide, by decide, by decide⟩,
    C20_column_rows_mandatory Example.column5 [0, 0] (by decide) (by decide) (by decide)⟩

/-! ## Lemmas for the column vector in the explicit-index entry point -/

/-- The copy loop of lines 369-379 after `n` rounds, when every row index lies
strictly between 0 and the row count: the guard of line 371 holds in every
round, and the first `n` rows of the output are written. -/
theorem column_selection_loop (c : DenseColumnMatrix) (R : List Int) (m k n : Nat)
    (hn : n ≤ k) (hnR : n ≤ R.length) (hR : ∀ i ∈ R, 0 < i ∧ i < (m : Int)) :
    (List.range n).foldlM (fun (output : DenseMatrix) i =>
        if IsFinite (R.getD i 0) ∧ R.getD i 0 > 0 ∧ R.getD i 0 < (m : Int) then
          Except.ok (output.set i 0 (c.coeff (R.getD i 0).toNat))
        else Except.error AlgorithmInputError.columnIndexOutOfRange) (DenseMatrix.make k 1)
      = Except.ok ⟨k, 1, (List.range n).map (fun i => [c.coeff (R.getD i 0).toNat])
          ++ List.replicate (k - n) [0]⟩ := by
  induction n with
  | zero => simp [DenseMatrix.make, pure, Except.pure]
  | succ n ih =>
    have hlt : n < k := by omega
    have hmem : R.getD n 0 ∈ R := by
      rw [List.getD_eq_getElem?_getD, List.getElem?_eq_getElem (by omega)]
      exact List.getElem_mem _
    have hguard : IsFinite (R.getD n 0) = true ∧ R.getD n 0 > 0 ∧ R.getD n 0 < (m : Int) :=
      ⟨rfl, (hR _ hmem).1, (hR _ hmem).2⟩
    have hrep : List.replicate (k - n) [(0 : Int)]
        = [0] :: List.replicate (k - (n + 1)) [0] := by
      have : k - n = (k - (n + 1)) + 1 := by omega
      rw [this, List.replicate_succ]
    rw [List.range_succ, List.foldlM_append, ih (by omega) (by omega)]
    simp only [bind, Except.bind, List.foldlM_cons, List.foldlM_nil, pure, Except.pure]
    rw [if_pos hguard]
    simp only [DenseMatrix.set]
    rw [List.getD_append_right _ _ _ _ (by simp), List.set_append_right _ _ (by simp)]
    simp [hrep]

/-- Lines 338-381 in closed form: a column vector, row indices strictly between 0
and the row count, and a column list that is empty or holds only 0. -/
theorem column_selection_eq (c : DenseColumnMatrix) (R C : List Int) (hR : R ≠ [])
    (hRr : ∀ i ∈ R, 0 < i ∧ i < (c.nrows : Int)) (hC : ∀ j ∈ C, j = 0) :
    column_selection (.column c) c R C
      = .ok ⟨R.length, 1, R.map (fun r => [c.coeff r.toNat])⟩ := by
  have hn : 0 < c.nrows := by
    cases R with
    | nil => exact absurd rfl hR
    | cons r t =>
      have := hRr r (List.mem_cons_self _ _)
      omega
  have hn0 : ¬ (c.nrows = 0) := by omega
  have b3 : ¬ (c.nrows ≤ 0) := by omega
  have hany : C.any (fun col => decide (col ≠ 0)) = false := by
    rw [List.any_eq_false]
    intro j hj
    simp [hC j hj]
  have hloop := column_selection_loop c R c.nrows R.length R.length (le_refl _) (le_refl _) hRr
  simp only [Nat.sub_self, List.replicate_zero, List.append_nil] at hloop
  rw [range_map_getD R 0 (fun r => [c.coeff r.toNat])] at hloop
  simp only [column_selection, Matrix.nrows, Matrix.ncols, DenseColumnMatrix.ncols, ne_eq,
    not_true_eq_false, or_false, if_false, hn0, b3, hany, Bool.and_false, Bool.false_eq_true,
    isEmpty_eq_false_of_ne_nil hR]
  exact hloop

/-- Passthrough on a column vector, lines 91-189: the full range resolved at
lines 141-147 has `row_end = nrows`, which the test of line 186 refuses, whatever
the four spin boxes hold.  The row count fits a `size_t`. -/
theorem run_passthrough_column (p : Parameters) (c : DenseColumnMatrix)
    (hrow : p.rowCheckBox = false) (hcol : p.columnCheckBox = false) (hn : 0 < c.nrows)
    (hsize : (c.nrows : Int) < 2 ^ 64) :
    run p (some (.column c)) none none = ⟨[], .error .guiRowIndicesExceed⟩ := by
  have hres : resolve_range p (.column c) false = (0, (c.nrows : Int), 0, 1) := by
    simp [resolve_range, hrow, hcol, Matrix.nrows, Matrix.ncols, DenseColumnMatrix.ncols]
  have hrows : to_size_t (c.nrows : Int) = (c.nrows : Int) :=
    to_size_t_eq _ (by omega) hsize
  have hone : to_size_t 1 = 1 := to_size_t_eq 1 (by norm_num) (by norm_num)
  have hex : exceeds_dimensions (.column c) (0, (c.nrows : Int), 0, 1) = false := by
    simp [exceeds_dimensions, Matrix.nrows, Matrix.ncols, DenseColumnMatrix.ncols, hrows, hone]
  have hcr : column_range (.column c) c 0 (c.nrows : Int) 0 1 = .error .guiRowIndicesExceed := by
    have hn0 : ¬ (c.nrows = 0) := by omega
    simp [column_range, Matrix.nrows, Matrix.ncols, DenseColumnMatrix.ncols, hn0, hrows]
  have hr0 : ¬ (c.nrows = 0 ∨ c.ncols = 0) := by
    simp [DenseColumnMatrix.ncols]; omega
  simp only [run, Matrix.nrows, Matrix.ncols, hr0, if_false, Option.isSome_none, Bool.or_self,
    Bool.false_and, hres, hex, hcr, Bool.false_eq_true]

/-! ## The claims, concluded -/

/-- C21 (the source departs from the claim): passthrough does not reach a column
vector.  On the column vectors `[10, 20, 30, 40, 50]` and `[10, 20, 30]`, with
no index matrices and the parameters of the constructor (both toggles clear),
the call throws "Gui row indeces exceed input matrix dimensions!" instead of
returning the input. -/
theorem C21_column_passthrough_throws :
    (Example.defaults.rowCheckBox = false ∧ Example.defaults.columnCheckBox = false) ∧
    run Example.defaults (some (.column Example.column5)) none none
      = ⟨[], .error .guiRowIndicesExceed⟩ ∧
    run Example.defaults (some (.column Example.column3)) none none
      = ⟨[], .error .guiRowIndicesExceed⟩ := by
  decide

/-- C22 (amended): a selection against a matrix with 0 rows or 0 columns.  The
entry point on index matrices returns the null handle for every index matrix and
every range parameter.  The explicit-index entry point throws an error when the
input is neither dense nor sparse, when both lists are empty, when the row list
is non-empty and the matrix has 0 rows, or when the column list is non-empty and
the matrix has 0 columns. -/
theorem C22_empty_matrix_selection (M : Matrix) (R C : List Int) (p : Parameters)
    (ri ci : DenseMatrixHandle)
    (hempty : M.nrows = 0 ∨ M.ncols = 0)
    (hsel : (matrix_is.dense M = false ∧ matrix_is.sparse M = false) ∨ (R = [] ∧ C = []) ∨
      (R ≠ [] ∧ M.nrows = 0) ∨ (C ≠ [] ∧ M.ncols = 0)) :
    run p (some M) ri ci = ⟨[.noValidInputs], .ok none⟩ ∧
    ∃ e : AlgorithmInputError, run_vector (some M) R C = ⟨[], .error e⟩ := by
  constructor
  · simp only [run, hempty, if_true]
  · by_cases hboth : R = [] ∧ C = []
    · obtain ⟨h1, h2⟩ := hboth
      subst h1; subst h2
      exact ⟨.noIndices, by simp [run_vector]⟩
    · have hne : (R.isEmpty && C.isEmpty) = false := by
        by_cases hR : R = []
        · have hC : C ≠ [] := fun h => hboth ⟨hR, h⟩
          rw [isEmpty_eq_false_of_ne_nil hC]; simp
        · rw [isEmpty_eq_false_of_ne_nil hR]; rfl
      by_cases hrow : ∃ i ∈ R, i < 0 ∨ i ≥ (M.nrows : Int)
      · refine ⟨.selectedRowExceeds, ?_⟩
        simp only [run_vector, hne, validation_fails R M.nrows hrow]
        simp
      · have hallR : ∀ i ∈ R, 0 ≤ i ∧ i < (M.nrows : Int) := by
          intro i hi
          by_contra hcon
          exact hrow ⟨i, hi, by omega⟩
        by_cases hcol : ∃ j ∈ C, j < 0 ∨ j ≥ (M.ncols : Int)
        · refine ⟨.selectedColumnExceeds, ?_⟩
          simp only [run_vector, hne, validation_passes R M.nrows hallR,
            validation_fails C M.ncols hcol]
          simp
        · have hallC : ∀ j ∈ C, 0 ≤ j ∧ j < (M.ncols : Int) := by
            intro j hj
            by_contra hcon
            exact hcol ⟨j, hj, by omega⟩
          rcases hsel with hk | hb | ⟨hR, hz⟩ | ⟨hC, hz⟩
          · cases M with
            | dense A => simp [matrix_is.dense, matrix_cast.as_dense] at hk
            | sparse S => simp [matrix_is.sparse, matrix_cast.as_sparse] at hk
            | column c =>
              have hz : c.nrows = 0 := by
                rcases hempty with h | h
                · exact h
                · simp [Matrix.ncols, DenseColumnMatrix.ncols] at h
              refine ⟨.emptyColumnMatrix, ?_⟩
              simp only [run_vector, hne, Matrix.nrows, Matrix.ncols, DenseColumnMatrix.ncols,
                validation_passes R c.nrows hallR, validation_passes C 1 hallC]
              simp [column_selection, Matrix.nrows, Matrix.ncols, DenseColumnMatrix.ncols, hz]
            | other r c =>
              refine ⟨.unknownMatrixType, ?_⟩
              simp only [run_vector, hne, Matrix.nrows, Matrix.ncols,
                validation_passes R r hallR, validation_passes C c hallC]
              simp
          · exact absurd hb hboth
          · exfalso
            cases R with
            | nil => exact hR rfl
            | cons r t =>
              have := hallR r (List.mem_cons_self _ _)
              omega
          · exfalso
            cases C with
            | nil => exact hC rfl
            | cons r t =>
              have := hallC r (List.mem_cons_self _ _)
              omega

/-- Witness of C22 (amended): the dense matrix with 0 rows and 3 columns, with
the row list `[0]`. -/
theorem C22_empty_matrix_selection_witness :
    (((Matrix.dense Example.dense0x3).nrows = 0 ∨ (Matrix.dense Example.dense0x3).ncols = 0) ∧
      ((matrix_is.dense (.dense Example.dense0x3) = false ∧
          matrix_is.sparse (.dense Example.dense0x3) = false) ∨
        (([0] : List Int) = [] ∧ ([] : List Int) = []) ∨
        (([0] : List Int) ≠ [] ∧ (Matrix.dense Example.dense0x3).nrows = 0) ∨
        (([] : List Int) ≠ [] ∧ (Matrix.dense Example.dense0x3).ncols = 0))) ∧
    run Example.rows0to5 (some (.dense Example.dense0x3)) (some Example.index0) none
      = ⟨[.noValidInputs], .ok none⟩ ∧
    ∃ e : AlgorithmInputError,
      run_vector (some (.dense Example.dense0x3)) [0] [] = ⟨[], .error e⟩ :=
  ⟨⟨by decide, by decide⟩,
    C22_empty_matrix_selection (.dense Example.dense0x3) [0] [] Example.rows0to5
      (some Example.index0) none (by decide) (by decide)⟩

/-- C22 as stated fails: on the dense matrix with 0 rows and 3 columns, the
explicit-index call with an empty row list and the column list `[0]` passes the
validation and returns a matrix, of 0 rows and 1 column. -/
theorem C22_counterexample :
    (Example.dense0x3.nrows = 0 ∨ Example.dense0x3.ncols = 0) ∧
    run_vector (some (.dense Example.dense0x3)) [] [0]
      = ⟨[], .ok (some (.dense ⟨0, 1, []⟩))⟩ := by
  decide

/-- C23: explicit selection on a column vector away from row 0.  For a non-empty
row list `R` with `0 < R[k] < nrows` and a column list that is empty or holds
only 0, the call returns a dense |R| × 1 matrix with
`output[k][0] = input[R[k]]`, in the order of the list, a repeated index giving
a repeated row. -/
theorem C23_column_explicit_away_from_zero (c : DenseColumnMatrix) (R C : List Int)
    (hR : R ≠ []) (hRr : ∀ i ∈ R, 0 < i ∧ i < (c.nrows : Int)) (hC : ∀ j ∈ C, j = 0) :
    ∃ out : DenseMatrix,
      run_vector (some (.column c)) R C = ⟨[], .ok (some (.dense out))⟩ ∧
      out.nrows = R.length ∧ out.ncols = 1 ∧
      out.data = R.map (fun r => [c.coeff r.toNat]) ∧
      ∀ (k : Nat) (hk : k < R.length), out.coeff k 0 = c.coeff (R[k]).toNat := by
  have hrows : ∀ i ∈ R, 0 ≤ i ∧ i < (c.nrows : Int) := by
    intro i hi
    have := hRr i hi
    omega
  have hcols : ∀ j ∈ C, 0 ≤ j ∧ j < ((1 : Nat) : Int) := by
    intro j hj
    have := hC j hj
    omega
  refine ⟨⟨R.length, 1, R.map (fun r => [c.coeff r.toNat])⟩, ?_, rfl, rfl, rfl, ?_⟩
  · simp only [run_vector, isEmpty_eq_false_of_ne_nil hR, Bool.false_and, Matrix.nrows,
      Matrix.ncols, DenseColumnMatrix.ncols, validation_passes R c.nrows hrows,
      validation_passes C 1 hcols, column_selection_eq c R C hR hRr hC]
    simp
  · intro k hk
    simp [DenseMatrix.coeff, List.getD_eq_getElem?_getD, hk]

/-- Witness of C23 on scenario C: the column vector `[10, 20, 30, 40, 50]`, the
row list `[1, 3]` and the column list `[0]`. -/
theorem C23_column_explicit_away_from_zero_witness :
    (([1, 3] : List Int) ≠ [] ∧
      (∀ i ∈ ([1, 3] : List Int), 0 < i ∧ i < (Example.column5.nrows : Int)) ∧
      (∀ j ∈ ([0] : List Int), j = 0)) ∧
    ∃ out : DenseMatrix,
      run_vector (some (.column Example.column5)) [1, 3] [0]
        = ⟨[], .ok (some (.dense out))⟩ ∧
      out.nrows = ([1, 3] : List Int).length ∧ out.ncols = 1 ∧
      out.data = ([1, 3] : List Int).map (fun r => [Example.column5.coeff r.toNat]) ∧
      ∀ (k : Nat) (hk : k < ([1, 3] : List Int).length),
        out.coeff k 0 = Example.column5.coeff (([1, 3] : List Int)[k]).toNat :=
  ⟨⟨by decide, by decide, by decide⟩,
    C23_column_explicit_away_from_zero Example.column5 [1, 3] [0]
      (by decide) (by decide) (by decide)⟩

/-- Scenario C of the specification, evaluated: the output is `[20, 40]`. -/
theorem scenario_C :
    run_vector (some (.column Example.column5)) [1, 3] [0]
      = ⟨[], .ok (some (.dense ⟨2, 1, [[20], [40]]⟩))⟩ := by
  decide

/-- C24: on a sparse input, for every non-empty selection whose indices pass the
validation of lines 239-253 (row list, column list, or both), the explicit-index
entry point emits "Could not deal with input data. Copying input matrix to
output" and returns the input itself, with its dimensions and stored entries;
the matrix assembled from the coordinate map is not part of the outcome. -/
theorem C24_sparse_explicit_returns_input (S : SparseRowMatrix) (R C : List Int)
    (hsel : R ≠ [] ∨ C ≠ [])
    (hR : ∀ i ∈ R, 0 ≤ i ∧ i < (S.nrows : Int)) (hC : ∀ j ∈ C, 0 ≤ j ∧ j < (S.ncols : Int)) :
    run_vector (some (.sparse S)) R C = ⟨[.couldNotDeal], .ok (some (.sparse S))⟩ := by
  have hne : (R.isEmpty && C.isEmpty) = false := by
    rcases hsel with h | h
    · rw [isEmpty_eq_false_of_ne_nil h]; rfl
    · rw [isEmpty_eq_false_of_ne_nil h]; simp
  simp only [run_vector, hne, Matrix.nrows, Matrix.ncols, validation_passes R S.nrows hR,
    validation_passes C S.ncols hC]
  simp

/-- Witness of C24: the 3×3 sparse matrix with the row list `[0, 1]` and the
column list `[2]`. -/
theorem C24_sparse_explicit_returns_input_witness :
    ((([0, 1] : List Int) ≠ [] ∨ ([2] : List Int) ≠ []) ∧
      (∀ i ∈ ([0, 1] : List Int), 0 ≤ i ∧ i < (Example.sparse3x3.nrows : Int)) ∧
      (∀ j ∈ ([2] : List Int), 0 ≤ j ∧ j < (Example.sparse3x3.ncols : Int))) ∧
    run_vector (some (.sparse Example.sparse3x3)) [0, 1] [2]
      = ⟨[.couldNotDeal], .ok (some (.sparse Example.sparse3x3))⟩ :=
  ⟨⟨by decide, by decide, by decide⟩,
    C24_sparse_explicit_returns_input Example.sparse3x3 [0, 1] [2]
      (by decide) (by decide) (by decide)⟩

end SelectSubMatrixAlgorithm

end SCIRun
